import Mathlib

/-! # Marathon game launcher: asset acquisition and icon resolution

A shallow embedding of `launcher.cpp` (icon cascade, data-presence check,
recursive purge, download orchestration) together with the properties of
its behaviour.

Conventions of the embedding.

* C strings that may be `NULL` are `Option String`.
* `assert(m_home != NULL)` in `launcher::confdir` is an explicit failure:
  functions that call `confdir()` return `none` where the assertion aborts
  the process.
* Calls that leave the process (libc, FLTK, the user answering a dialog) go
  through a record of functions over an abstract machine state, so that the
  theorems hold for every behaviour of the operating system.  A concrete
  in-memory file tree instantiates that record for closed examples.
* Every call by which `download` can change the machine or address the user
  (`mkdir`, `remove`, `nftw`, `system`, `fl_ask`, `fl_alert`) is appended,
  with its result, to an effect trace; `stat`, `opendir` and `readdir` only
  read the machine state.
* `LOG(...)` (printing to stdout in verbose mode) and `Fl::flush()` are not
  modelled.
-/

namespace Launcher

/-! ## Icon cascade -/

/-- The image held in `m_png`: decoded from a file, or from the resource
`input_gaming_png` compiled into the binary. -/
inductive Image where
  | file : String → Image
  | embedded : Image
  deriving DecidableEq, Repr

/-- What the icon code reads from its surroundings. -/
structure IconEnv where
  /-- Value of `program_invocation_name` (or its BSD equivalent); `none` when
  it is not available. -/
  invocation_name : Option String
  /-- Result of `realpath` on the running executable; `none` for `NULL`. -/
  self_exe : Option String
  /-- Whether `Fl_PNG_Image(path)` decodes, i.e. `fail()` is zero. -/
  png_ok : String → Bool
  /-- Whether `Fl_PNG_Image(NULL, input_gaming_png, input_gaming_png_len)`
  decodes. -/
  embedded_ok : Bool

/-- The fields of `class launcher` that stay fixed while the embedded
functions run, plus the root position of `m_win`.  The mutable `m_png` lives
in `IconState`. -/
structure launcher where
  m_home : Option String
  m_script : Option String
  x_root : Int
  y_root : Int

/-- Icon-related state: `m_png`, the image handed to
`Fl_Window::default_icon`, and the constructor calls made so far. -/
structure IconState where
  m_png : Option Image
  default_icon : Option Image
  tried : List Image
  deriving DecidableEq, Repr

/-- Embeds `launcher::confdir`: `$HOME/.alephone/`; `none` when the assertion
`m_home != NULL` fails. -/
def confdir (l : launcher) : Option String :=
  match l.m_home with
  | none => none
  | some home => some (home ++ "/.alephone/")

/-- Embeds `launcher::get_progname_png`: invocation name plus `.png`, only if the
name is non-empty and contains a path separator. -/
def get_progname_png (e : IconEnv) : String :=
  match e.invocation_name with
  | some path => if path ≠ "" ∧ '/' ∈ path.data then path ++ ".png" else ""
  | none => ""

/-- Embeds `launcher::get_self_exe_png`: resolved executable path plus `.png`, or the
empty string. -/
def get_self_exe_png (e : IconEnv) : String :=
  match e.self_exe with
  | some rp => rp ++ ".png"
  | none => ""

/-- Embeds `launcher::default_icon_png`: replace `m_png` by the image decoded from
`path`; on failure reset `m_png` to `NULL` and report `false`. -/
def default_icon_png (e : IconEnv) (path : String) (s : IconState) : Bool × IconState :=
  let s1 : IconState := { s with tried := s.tried ++ [Image.file path] }
  if e.png_ok path then
    (true, { s1 with m_png := some (Image.file path), default_icon := some (Image.file path) })
  else
    (false, { s1 with m_png := none })

/-- The macro `GET_HICOLOR(RES)`. -/
def GET_HICOLOR (e : IconEnv) (res : String) (s : IconState) : Bool × IconState :=
  default_icon_png e ("/usr/share/icons/hicolor/" ++ res ++ "x" ++ res ++ "/apps/alephone.png") s

/-- The tail of `launcher::load_default_icon`: decode the embedded resource. -/
def load_embedded_icon (e : IconEnv) (s : IconState) : IconState :=
  let s1 : IconState := { s with tried := s.tried ++ [Image.embedded] }
  if e.embedded_ok then
    { s1 with m_png := some Image.embedded, default_icon := some Image.embedded }
  else
    { s1 with m_png := none }

/-- Embeds `launcher::load_default_icon`.  The result is `none` when `confdir()`
aborts on a `NULL` home. -/
def load_default_icon (e : IconEnv) (l : launcher) (s : IconState) : Option IconState :=
  let prog := get_progname_png e
  let r1 := if prog ≠ "" then default_icon_png e prog s else (false, s)
  if r1.1 then some r1.2 else
  let path := get_self_exe_png e
  let r2 := if path ≠ "" ∧ path ≠ prog then default_icon_png e path r1.2 else (false, r1.2)
  if r2.1 then some r2.2 else
  match confdir l with
  | none => none
  | some cd =>
  let path := cd ++ "alephone.png"
  let r3 := default_icon_png e path r2.2
  if r3.1 then some r3.2 else
  let r := GET_HICOLOR e "512" r3.2
  if r.1 then some r.2 else
  let r := GET_HICOLOR e "256" r.2
  if r.1 then some r.2 else
  let r := GET_HICOLOR e "128" r.2
  if r.1 then some r.2 else
  let r := GET_HICOLOR e "64" r.2
  if r.1 then some r.2 else
  let r := GET_HICOLOR e "48" r.2
  if r.1 then some r.2 else
  let r := GET_HICOLOR e "32" r.2
  if r.1 then some r.2 else
  let r := GET_HICOLOR e "24" r.2
  if r.1 then some r.2 else
  let r := GET_HICOLOR e "22" r.2
  if r.1 then some r.2 else
  let r := GET_HICOLOR e "16" r.2
  if r.1 then some r.2 else
  let r := default_icon_png e "/usr/share/pixmaps/alephone.png" r.2
  if r.1 then some r.2 else
  some (load_embedded_icon e r.2)

/-! ### The cascade as the specification words it -/

/-- Ladder of icon-theme sizes, largest first. -/
def hicolor_sizes : List Nat := [512, 256, 128, 64, 48, 32, 24, 22, 16]

/-- Path probed for the theme size `n`. -/
def hicolor_path (n : Nat) : String :=
  "/usr/share/icons/hicolor/" ++ toString n ++ "x" ++ toString n ++ "/apps/alephone.png"

/-- The ordered file candidates (1)-(5) of the icon cascade for a launcher
whose home directory is `home`. -/
def icon_candidates (e : IconEnv) (home : String) : List String :=
  (if get_progname_png e ≠ "" then [get_progname_png e] else []) ++
  (if get_self_exe_png e ≠ "" ∧ get_self_exe_png e ≠ get_progname_png e
    then [get_self_exe_png e] else []) ++
  [home ++ "/.alephone/" ++ "alephone.png"] ++
  hicolor_sizes.map hicolor_path ++
  ["/usr/share/pixmaps/alephone.png"]

/-- Candidates probed when a list is tried in order until one decodes: every
candidate before the first that decodes, then that one. -/
def probed (ok : String → Bool) (cs : List String) : List String :=
  cs.takeWhile (fun p => !ok p) ++ (cs.find? ok).toList

/-- Try the candidates in order with `default_icon_png`, stopping at the first
success. -/
def cascade (e : IconEnv) : List String → IconState → Bool × IconState
  | [], s => (false, s)
  | p :: ps, s =>
    let r := default_icon_png e p s
    if r.1 then r else cascade e ps r.2

/-- Run the cascade over the candidates and fall back to the embedded
resource when none decodes. -/
def resolve (e : IconEnv) (cs : List String) (s : IconState) : IconState :=
  if (cascade e cs s).1 then (cascade e cs s).2 else load_embedded_icon e (cascade e cs s).2


/-! ## Operating-system interface and effect trace -/

/-- The part of `struct stat` that the launcher inspects. -/
structure Stat where
  /-- Value of `S_ISDIR(st_mode)`. -/
  is_dir : Bool
  deriving DecidableEq, Repr

/-- An outward call made by the launcher, with its result. -/
inductive Event where
  | mkdir (path : String) (mode : Nat) (ret : Int)
  | remove (path : String) (ret : Int)
  | nftw (path : String) (ret : Int) (errno : Nat)
  | fl_ask (title : String) (msg : String) (ret : Int)
  | fl_alert (title : String) (msg : String)
  | system (cmd : String) (ret : Int)
  deriving DecidableEq, Repr

/-- Whether the event is an `nftw` walk. -/
def Event.is_nftw : Event → Bool
  | Event.nftw _ _ _ => true
  | _ => false

/-- Behaviour of everything outside the process, over a machine state `σ`. -/
structure Sys (σ : Type) where
  /-- Call `mkdir(path, mode)`: return value and new state. -/
  mkdir : String → Nat → σ → Int × σ
  /-- Call `remove(path)` of `<stdio.h>`: return value and new state. -/
  remove : String → σ → Int × σ
  /-- Call `nftw(path, cb, 20, FTW_DEPTH | FTW_MOUNT | FTW_PHYS)` where `cb` calls
  `remove(fpath)`: return value, `errno` afterwards, and new state. -/
  nftw_remove : String → σ → (Int × Nat) × σ
  /-- Call `stat(path, &st)`: `none` when it returns non-zero. -/
  stat : String → σ → Option Stat
  /-- Call `opendir(path)` followed by `readdir` until it yields `NULL`: the
  `d_name`s in the order returned; `none` when `opendir` returns `NULL`. -/
  opendir : String → σ → Option (List String)
  /-- Call `system(cmd)`: exit status and new state. -/
  system : String → σ → Int × σ
  /-- Dialog `fl_ask` under the given title: the user's answer (0 for "No") and the
  state when the dialog closes. -/
  fl_ask : String → String → σ → Int × σ
  /-- Dialog `fl_alert` under the given title: the state when the dialog closes. -/
  fl_alert : String → String → σ → σ

/-- Machine state together with the calls made so far. -/
structure World (σ : Type) where
  st : σ
  trace : List Event

/-- The `errno` value "No such file or directory". -/
def ENOENT : Nat := 2

/-- Call `mkdir`, recording it; the launcher ignores the return value. -/
def call_mkdir {σ : Type} (sys : Sys σ) (path : String) (mode : Nat) (w : World σ) : World σ :=
  ⟨(sys.mkdir path mode w.st).2, w.trace ++ [Event.mkdir path mode (sys.mkdir path mode w.st).1]⟩

/-- Call `remove`, recording it; the launcher ignores the return value. -/
def call_remove {σ : Type} (sys : Sys σ) (path : String) (w : World σ) : World σ :=
  ⟨(sys.remove path w.st).2, w.trace ++ [Event.remove path (sys.remove path w.st).1]⟩

/-- Call `nftw` with the removing callback, recording it. -/
def call_nftw {σ : Type} (sys : Sys σ) (path : String) (w : World σ) : (Int × Nat) × World σ :=
  ((sys.nftw_remove path w.st).1,
    ⟨(sys.nftw_remove path w.st).2,
      w.trace ++ [Event.nftw path (sys.nftw_remove path w.st).1.1 (sys.nftw_remove path w.st).1.2]⟩)

/-- Run `fl_message_title(title); fl_ask(msg)`, recording it. -/
def call_fl_ask {σ : Type} (sys : Sys σ) (title msg : String) (w : World σ) : Int × World σ :=
  ((sys.fl_ask title msg w.st).1,
    ⟨(sys.fl_ask title msg w.st).2, w.trace ++ [Event.fl_ask title msg (sys.fl_ask title msg w.st).1]⟩)

/-- Run `fl_message_title(title); fl_alert(msg)`, recording it. -/
def call_fl_alert {σ : Type} (sys : Sys σ) (title msg : String) (w : World σ) : World σ :=
  ⟨sys.fl_alert title msg w.st, w.trace ++ [Event.fl_alert title msg]⟩

/-- Embeds `launcher::error_message`. -/
def error_message {σ : Type} (sys : Sys σ) (msg : String) (w : World σ) : World σ :=
  call_fl_alert sys "Error" msg w

/-- Embeds `launcher::command`: run `cmd` with `system` and return its status. -/
def command {σ : Type} (sys : Sys σ) (cmd : String) (w : World σ) : Int × World σ :=
  ((sys.system cmd w.st).1,
    ⟨(sys.system cmd w.st).2, w.trace ++ [Event.system cmd (sys.system cmd w.st).1]⟩)

/-! ## Purge, presence check and download -/

/-- Embeds `launcher::remove_data`.  The first component is `none` when `confdir()`
aborts. -/
def remove_data {σ : Type} (sys : Sys σ) (l : launcher) (dir : String) (w : World σ) :
    Option Bool × World σ :=
  match confdir l with
  | none => (none, w)
  | some cd =>
    let path := cd ++ dir
    let r := call_nftw sys path w
    if r.1.1 ≠ 0 ∧ r.1.2 ≠ ENOENT then
      (some false, call_fl_alert sys "Error" ("Failed to delete:\n" ++ path) r.2)
    else
      (some true, r.2)

/-- The `readdir` loop of `launcher::is_full_directory` over the names that
`readdir` yields. -/
def readdir_loop : List String → Bool
  | [] => false
  | d_name :: rest =>
    if d_name ≠ "." ∧ d_name ≠ ".." then true else readdir_loop rest

/-- Embeds `launcher::is_full_directory`. -/
def is_full_directory {σ : Type} (sys : Sys σ) (path : String) (s : σ) : Bool :=
  match sys.stat path s with
  | none => false
  | some st =>
    if !st.is_dir then false else
    match sys.opendir path s with
    | none => false
    | some names => readdir_loop names

/-- The array `paths` of `launcher::all_directories_exist`. -/
def paths : List String :=
  ["data-marathon-master", "data-marathon-2-master", "data-marathon-infinity-master"]

/-- The `for` loop of `launcher::all_directories_exist` over the remaining
entries of `paths`. -/
def all_directories_exist_loop {σ : Type} (sys : Sys σ) (l : launcher) (s : σ) :
    List String → Option Bool
  | [] => some true
  | p :: rest =>
    match confdir l with
    | none => none
    | some cd =>
      if !is_full_directory sys (cd ++ p) s then some false
      else all_directories_exist_loop sys l s rest

/-- Embeds `launcher::all_directories_exist`; `none` when `confdir()` aborts. -/
def all_directories_exist {σ : Type} (sys : Sys σ) (l : launcher) (s : σ) : Option Bool :=
  all_directories_exist_loop sys l s paths

/-- Embeds `launcher::script`: a `NULL` or empty argument leaves `m_script` alone. -/
def script (p : Option String) (l : launcher) : launcher :=
  match p with
  | none => l
  | some str => if str = "" then l else { l with m_script := some str }

/-- Result of `sprintf(buf, fmt, m_win->x_root(), m_win->y_root())` with the `fmt` of
`launcher::download`. -/
def sprintf_fmt (x y : Int) : String :=
  "xterm " ++
  "-title 'Download (close window to abort)' " ++
  "-geometry 100x30+" ++ toString x ++ "+" ++ toString y ++ " " ++
  "-l -lf ~/.alephone/download.log " ++
  "-e '"

/-- The macro `ICON_URL`. -/
def ICON_URL : String :=
  "https://raw.githubusercontent.com/Aleph-One-Marathon/alephone/5653d64ba12f2cf058abcd8fd9ec2f06bcae9839/flatpak/alephone.png"

/-- The macro `REPO`. -/
def REPO : String := "https://github.com/Aleph-One-Marathon/data-marathon"

/-- The macro `MARATHON_DL(x)`. -/
def MARATHON_DL (x : String) : String :=
  "(wget -O- " ++ REPO ++ x ++ "/archive/refs/heads/master.tar.gz | tar xfz - -C ~/.alephone)"

/-- The string `default_script` of `launcher::download`. -/
def default_script : String :=
  "set -x;" ++
  "(" ++
    "wget -O ~/.alephone/alephone.png " ++ ICON_URL ++ " ;" ++
    MARATHON_DL "" ++ " && " ++
    MARATHON_DL "-2" ++ " && " ++
    MARATHON_DL "-infinity" ++
  ") || (" ++
    "set +x;" ++
    "echo;" ++
    "echo \"Press ENTER to close window\";" ++
    "read x" ++
  ")" ++
  "'"

/-- The command line that `download` runs for a custom script. -/
def script_command (l : launcher) (m_script : String) : String :=
  sprintf_fmt l.x_root l.y_root ++ "sh -c " ++ m_script ++
    " ; set +x; echo; echo \"Press ENTER to close window\"; read x'"

/-- The command line that `download` runs for the built-in pipeline. -/
def builtin_command (l : launcher) : String :=
  sprintf_fmt l.x_root l.y_root ++ default_script

/-- The tool check of `launcher::download`. -/
def wget_check : String := "wget --version 2>/dev/null >/dev/null"

/-- The part of `launcher::download` after the three data directories have
been purged: delete the cached icon and run the built-in pipeline. -/
def download_fetch {σ : Type} (sys : Sys σ) (l : launcher) (w : World σ) :
    Option Bool × World σ :=
  match confdir l with
  | none => (none, w)
  | some cd =>
    let s := cd ++ "alephone.png"
    let w := call_remove sys s w
    let r := command sys (builtin_command l) w
    (some true, r.2)

/-- The part of `launcher::download` from "delete existing data directories"
on. -/
def download_purge {σ : Type} (sys : Sys σ) (l : launcher) (w : World σ) :
    Option Bool × World σ :=
  match remove_data sys l "data-marathon-master" w with
  | (none, w) => (none, w)
  | (some false, w) => (some false, w)
  | (some true, w) =>
  match remove_data sys l "data-marathon-2-master" w with
  | (none, w) => (none, w)
  | (some false, w) => (some false, w)
  | (some true, w) =>
  match remove_data sys l "data-marathon-infinity-master" w with
  | (none, w) => (none, w)
  | (some false, w) => (some false, w)
  | (some true, w) => download_fetch sys l w

/-- Embeds `launcher::download`.  The first component is the returned `bool`, or
`none` when `confdir()` aborts the process. -/
def download {σ : Type} (sys : Sys σ) (l : launcher) (w : World σ) : Option Bool × World σ :=
  match confdir l with
  | none => (none, w)
  | some cd =>
    let w := call_mkdir sys cd 0o775 w
    let s := cd ++ "download.log"
    let w := call_remove sys s w
    match l.m_script with
    | some m_script =>
      let msg := "Do you want to (re-)download the game files using this custom script?"
      let a := call_fl_ask sys "Custom download script" (msg ++ "\n\n>> " ++ m_script) w
      if a.1 = 0 then (some false, a.2) else
      let r := command sys (script_command l m_script) a.2
      (some true, r.2)
    | none =>
      let c := command sys wget_check w
      if c.1 ≠ 0 then
        (some false, error_message sys "`wget' is required to download the game files." c.2)
      else
      match all_directories_exist sys l c.2.st with
      | none => (none, c.2)
      | some false => download_purge sys l c.2
      | some true =>
        let a := call_fl_ask sys "Download again?" "Do you want to re-download the game files?" c.2
        if a.1 = 0 then (some false, a.2) else
        download_purge sys l a.2

/-- The probe of `launcher::launch_cb` for the game binary. -/
def alephone_check : String := "alephone --version 2>/dev/null >/dev/null"

/-- Embeds `launcher::launch_cb` for the command `p` attached to the button:
run it, and only if it fails run the probe; report when both fail.  Hiding
and showing the window is not modelled. -/
def launch_cb {σ : Type} (sys : Sys σ) (p : String) (w : World σ) : World σ :=
  let g := command sys p w
  if g.1 ≠ 0 then
    let v := command sys alephone_check g.2
    if v.1 ≠ 0 then error_message sys "`alephone' is not in PATH" v.2
    else v.2
  else g.2

/-- The commands that `launcher::make_window` attaches to the three game
buttons. -/
def game_commands : List String :=
  ["alephone ~/.alephone/data-marathon-master",
   "alephone ~/.alephone/data-marathon-2-master",
   "alephone ~/.alephone/data-marathon-infinity-master"]

/-- Number of bytes that `sprintf` writes into `buf` in `launcher::download`:
the formatted text and the terminating NUL. -/
def sprintf_bytes (x y : Int) : Nat := (sprintf_fmt x y).utf8ByteSize + 1

/-- The machine state in which the built-in branch of `download` runs the
tool check: after the initial `mkdir` and the removal of the log. -/
def state_at_tool_check {σ : Type} (sys : Sys σ) (cd : String) (s : σ) : σ :=
  (sys.remove (cd ++ "download.log") (sys.mkdir cd 0o775 s).2).2

/-- The machine state in which the built-in branch of `download` evaluates
`all_directories_exist()`: after the tool check has run. -/
def state_at_presence_check {σ : Type} (sys : Sys σ) (cd : String) (s : σ) : σ :=
  (sys.system wget_check (state_at_tool_check sys cd s)).2

/-! ## A concrete machine: an in-memory file tree

The tree holds regular files and directories; a directory carries a read and
a write permission bit and its entries in `readdir` order.  Paths are split
at `/`; empty components and `.` are skipped and `..` steps to the parent.
Symbolic links, mount points and search permission are not represented. -/

/-- A file-system object. -/
inductive Node where
  | file : Node
  | dir : Bool → Bool → List (String × Node) → Node
  deriving Repr

/-- A file tree with the working directory of the process. -/
structure FS where
  root : Node
  cwd : List String

/-- Split a character list at every `/`. -/
def split_slash : List Char → List (List Char)
  | [] => [[]]
  | c :: cs =>
    if c = '/' then [] :: split_slash cs
    else
      match split_slash cs with
      | [] => [[c]]
      | x :: xs => (c :: x) :: xs

/-- One step of path resolution on the list of directory names walked so
far. -/
def walk_step (at_ : List String) (c : String) : List String :=
  if c = "" ∨ c = "." then at_
  else if c = ".." then at_.dropLast
  else at_ ++ [c]

/-- The names from the root down to the object that `path` denotes. -/
def locate (cwd : List String) (path : String) : List String :=
  ((split_slash path.data).map String.mk).foldl walk_step
    (if path.data.head? = some '/' then [] else cwd)

/-- The `errno` value "Not a directory". -/
def ENOTDIR : Nat := 20

/-- The object found by descending along `names`, or the `errno` of the
failed lookup. -/
def Node.get : Node → List String → Except Nat Node
  | n, [] => Except.ok n
  | Node.file, _ :: _ => Except.error ENOTDIR
  | Node.dir _ _ es, c :: cs =>
    match es.lookup c with
    | none => Except.error ENOENT
    | some child => child.get cs

/-- Replace the entry `c` by `v`, append it when absent, or drop it when `v`
is `none`. -/
def set_entry (c : String) (v : Option Node) : List (String × Node) → List (String × Node)
  | [] =>
    match v with
    | none => []
    | some n => [(c, n)]
  | (k, old) :: rest =>
    if k = c then
      match v with
      | none => rest
      | some n => (k, n) :: rest
    else (k, old) :: set_entry c v rest

/-- The tree with the object at `names` replaced by `v` (removed for `none`);
unchanged when the parent of `names` is not an existing directory. -/
def Node.put : Node → List String → Option Node → Node
  | n, [], v => v.getD n
  | Node.file, _ :: _, _ => Node.file
  | Node.dir r w es, [c], v => Node.dir r w (set_entry c v es)
  | Node.dir r w es, c :: c2 :: cs, v =>
    match es.lookup c with
    | none => Node.dir r w es
    | some child => Node.dir r w (set_entry c (some (child.put (c2 :: cs) v)) es)

/-- The `errno` value "Permission denied". -/
def EACCES : Nat := 13
/-- The `errno` value "Device or resource busy". -/
def EBUSY : Nat := 16
/-- The `errno` value "File exists". -/
def EEXIST : Nat := 17
/-- The `errno` value "Directory not empty". -/
def ENOTEMPTY : Nat := 39

/-- Whether entries may be added to or removed from the directory at
`names`; the `errno` otherwise. -/
def parent_writable (root : Node) (names : List String) : Except Nat Unit :=
  match root.get names with
  | Except.error e => Except.error e
  | Except.ok Node.file => Except.error ENOTDIR
  | Except.ok (Node.dir _ w _) => if w then Except.ok () else Except.error EACCES

/-- Model of `mkdir(path, mode)` on the file tree: the new tree, or `errno`.  The new
directory takes its permission bits from the owner bits of `mode`. -/
def FS.mkdir (fs : FS) (path : String) (mode : Nat) : Except Nat FS :=
  if path = "" then Except.error ENOENT else
  let names := locate fs.cwd path
  match fs.root.get names with
  | Except.ok _ => Except.error EEXIST
  | Except.error _ =>
    match parent_writable fs.root names.dropLast with
    | Except.error e => Except.error e
    | Except.ok _ =>
      let made := Node.dir (mode / 256 % 2 == 1) (mode / 128 % 2 == 1) []
      Except.ok { fs with root := fs.root.put names (some made) }

/-- Model of `remove(path)` on the file tree (`unlink` for a file, `rmdir` for a
directory): the new tree, or `errno`. -/
def FS.remove (fs : FS) (path : String) : Except Nat FS :=
  if path = "" then Except.error ENOENT else
  let names := locate fs.cwd path
  match fs.root.get names with
  | Except.error e => Except.error e
  | Except.ok n =>
    if names = [] then Except.error EBUSY else
    match parent_writable fs.root names.dropLast with
    | Except.error e => Except.error e
    | Except.ok _ =>
      match n with
      | Node.file => Except.ok { fs with root := fs.root.put names none }
      | Node.dir _ _ [] => Except.ok { fs with root := fs.root.put names none }
      | Node.dir _ _ (_ :: _) => Except.error ENOTEMPTY

mutual
/-- Depth-first, children-first removal of a subtree whose parent directory is
writable iff `pw`.  `none` when everything was removed; otherwise what is left
of the subtree and the `errno` of the `remove` that failed and stopped the
walk. -/
def rm_tree (pw : Bool) : Node → Option (Node × Nat)
  | Node.file => if pw then none else some (Node.file, EACCES)
  | Node.dir r w es =>
    if r then
      match rm_entries w es with
      | (left, some e) => some (Node.dir r w left, e)
      | (_, none) => if pw then none else some (Node.dir r w [], EACCES)
    else
      match es with
      | [] => if pw then none else some (Node.dir r w [], EACCES)
      | _ :: _ => some (Node.dir r w es, if pw then ENOTEMPTY else EACCES)
/-- Remove the entries of a directory in order, stopping at the first
failure: the entries left and the `errno` of the failure. -/
def rm_entries (w : Bool) : List (String × Node) → List (String × Node) × Option Nat
  | [] => ([], none)
  | (name, n) :: rest =>
    match rm_tree w n with
    | none => rm_entries w rest
    | some (n', e) => ((name, n') :: rest, some e)
end

/-- The `nftw` walk with the removing callback on the file tree: return
value, `errno`, and the tree afterwards. -/
def FS.nftw_remove (fs : FS) (path : String) : (Int × Nat) × FS :=
  if path = "" then ((-1, ENOENT), fs) else
  let names := locate fs.cwd path
  match fs.root.get names with
  | Except.error e => ((-1, e), fs)
  | Except.ok n =>
    if names = [] then ((-1, EBUSY), fs) else
    let pw := match parent_writable fs.root names.dropLast with
      | Except.ok _ => true
      | Except.error _ => false
    match rm_tree pw n with
    | none => ((0, 0), { fs with root := fs.root.put names none })
    | some (n', e) => ((-1, e), { fs with root := fs.root.put names (some n') })

/-- Model of `stat(path)` on the file tree. -/
def FS.stat (fs : FS) (path : String) : Option Stat :=
  if path = "" then none else
  match fs.root.get (locate fs.cwd path) with
  | Except.error _ => none
  | Except.ok Node.file => some ⟨false⟩
  | Except.ok (Node.dir _ _ _) => some ⟨true⟩

/-- Model of `opendir(path)` and the names `readdir` yields: `.` and `..` first, then
the entries. -/
def FS.opendir (fs : FS) (path : String) : Option (List String) :=
  if path = "" then none else
  match fs.root.get (locate fs.cwd path) with
  | Except.ok (Node.dir true _ es) => some ("." :: ".." :: es.map Prod.fst)
  | _ => none

/-- The machine whose files are a file tree.  `exec` says what each shell
command does, `answer` what the user replies to each `fl_ask`. -/
def tree_sys (exec : String → FS → Int × FS) (answer : String → String → Int) : Sys FS where
  mkdir := fun path mode fs =>
    match fs.mkdir path mode with
    | Except.ok fs' => (0, fs')
    | Except.error _ => (-1, fs)
  remove := fun path fs =>
    match fs.remove path with
    | Except.ok fs' => (0, fs')
    | Except.error _ => (-1, fs)
  nftw_remove := fun path fs => fs.nftw_remove path
  stat := fun path fs => fs.stat path
  opendir := fun path fs => fs.opendir path
  system := exec
  fl_ask := fun title msg fs => (answer title msg, fs)
  fl_alert := fun _ _ fs => fs

/-! ## Example machines -/

/-- A launcher for the user whose home is `/home/u`, using the built-in
pipeline. -/
def builtin_launcher : launcher := ⟨some "/home/u", none, 100, 200⟩

/-- The same launcher with the custom script `dl.sh`. -/
def script_launcher : launcher := script (some "dl.sh") builtin_launcher

/-- A tree in which `/home/u` exists and is empty. -/
def fresh_home : FS :=
  ⟨Node.dir true true [("home", Node.dir true true [("u", Node.dir true true [])])], []⟩

/-- A tree in which `/home/u/.alephone` holds a download log, a cached icon
and the three data directories, each with content. -/
def full_home : FS :=
  ⟨Node.dir true true [("home", Node.dir true true [("u", Node.dir true true
    [(".alephone", Node.dir true true
      [("download.log", Node.file),
       ("alephone.png", Node.file),
       ("data-marathon-master", Node.dir true true [("Map.sceA", Node.file)]),
       ("data-marathon-2-master", Node.dir true true
         [("Scripts", Node.dir true true [("a.mml", Node.file)])]),
       ("data-marathon-infinity-master", Node.dir true true [("Map.sceA", Node.file)])])])])],
   []⟩

/-- As `full_home`, but the second data directory is write-protected, so its
content cannot be removed. -/
def locked_home : FS :=
  ⟨Node.dir true true [("home", Node.dir true true [("u", Node.dir true true
    [(".alephone", Node.dir true true
      [("alephone.png", Node.file),
       ("data-marathon-master", Node.dir true true [("Map.sceA", Node.file)]),
       ("data-marathon-2-master", Node.dir true false [("Map.sceA", Node.file)]),
       ("data-marathon-infinity-master", Node.dir true true [("Map.sceA", Node.file)])])])])],
   []⟩

/-- A machine on which every command succeeds without touching the files and
the user answers "Yes". -/
def willing_sys : Sys FS := tree_sys (fun _ fs => (0, fs)) (fun _ _ => 1)

/-- A machine on which every command succeeds without touching the files and
the user answers "No". -/
def declining_sys : Sys FS := tree_sys (fun _ fs => (0, fs)) (fun _ _ => 0)

/-- A machine without `wget`: every command exits with status 1 and touches
no file; the user answers "Yes". -/
def no_wget_sys : Sys FS := tree_sys (fun _ fs => (1, fs)) (fun _ _ => 1)

/-- A machine on which the game exits with status 1 although the binary is
installed: only the probe succeeds. -/
def crashing_game_sys : Sys FS :=
  tree_sys (fun cmd fs => (if cmd = alephone_check then 0 else 1, fs)) (fun _ _ => 1)

/-- An icon environment in which no file candidate exists or decodes; only
the resource compiled into the binary does. -/
def barren_icons : IconEnv := ⟨none, none, fun _ => false, true⟩

theorem hicolor_paths : hicolor_sizes.map hicolor_path =
    ["/usr/share/icons/hicolor/" ++ "512" ++ "x" ++ "512" ++ "/apps/alephone.png",
     "/usr/share/icons/hicolor/" ++ "256" ++ "x" ++ "256" ++ "/apps/alephone.png",
     "/usr/share/icons/hicolor/" ++ "128" ++ "x" ++ "128" ++ "/apps/alephone.png",
     "/usr/share/icons/hicolor/" ++ "64" ++ "x" ++ "64" ++ "/apps/alephone.png",
     "/usr/share/icons/hicolor/" ++ "48" ++ "x" ++ "48" ++ "/apps/alephone.png",
     "/usr/share/icons/hicolor/" ++ "32" ++ "x" ++ "32" ++ "/apps/alephone.png",
     "/usr/share/icons/hicolor/" ++ "24" ++ "x" ++ "24" ++ "/apps/alephone.png",
     "/usr/share/icons/hicolor/" ++ "22" ++ "x" ++ "22" ++ "/apps/alephone.png",
     "/usr/share/icons/hicolor/" ++ "16" ++ "x" ++ "16" ++ "/apps/alephone.png"] := by
  decide

theorem resolve_nil (e : IconEnv) (s : IconState) :
    resolve e [] s = load_embedded_icon e s := by
  simp [resolve, cascade]

theorem resolve_cons (e : IconEnv) (p : String) (ps : List String) (s : IconState) :
    resolve e (p :: ps) s =
      if (default_icon_png e p s).1 then (default_icon_png e p s).2
      else resolve e ps (default_icon_png e p s).2 := by
  unfold resolve
  by_cases h : (default_icon_png e p s).1 = true <;> simp [cascade, h]

theorem load_default_icon_eq_resolve (e : IconEnv) (l : launcher) (s : IconState)
    (home : String) (hh : l.m_home = some home) :
    load_default_icon e l s = some (resolve e (icon_candidates e home) s) := by
  unfold icon_candidates
  rw [hicolor_paths]
  unfold load_default_icon
  simp only [confdir, hh, GET_HICOLOR]
  by_cases h1 : get_progname_png e = "" <;> by_cases h2 : get_self_exe_png e = ""
    <;> by_cases h3 : get_self_exe_png e = get_progname_png e
    <;> simp only [h1, h2, h3, resolve_cons, resolve_nil, apply_ite some, ne_eq, not_true_eq_false,
      not_false_eq_true, and_self, and_true, and_false, false_and, true_and, if_true, if_false,
      List.nil_append, List.cons_append, List.append_assoc, List.singleton_append,
      Bool.false_eq_true]

theorem default_icon_png_fst (e : IconEnv) (p : String) (s : IconState) :
    (default_icon_png e p s).1 = e.png_ok p := by
  unfold default_icon_png
  cases h : e.png_ok p <;> simp

theorem cascade_fst (e : IconEnv) (cs : List String) (s : IconState) :
    (cascade e cs s).1 = (cs.find? e.png_ok).isSome := by
  induction cs generalizing s with
  | nil => simp [cascade]
  | cons p ps ih =>
    simp only [cascade, default_icon_png_fst]
    cases h : e.png_ok p <;> simp [h, ih, default_icon_png_fst, List.find?]

theorem cascade_tried (e : IconEnv) (cs : List String) (s : IconState) :
    (cascade e cs s).2.tried = s.tried ++ (probed e.png_ok cs).map Image.file := by
  induction cs generalizing s with
  | nil => simp [cascade, probed]
  | cons p ps ih =>
    simp only [cascade, default_icon_png_fst]
    cases h : e.png_ok p
    · simp [h, ih, probed, List.takeWhile, List.find?, default_icon_png]
    · simp [h, probed, List.takeWhile, List.find?, default_icon_png]

theorem cascade_hit (e : IconEnv) (cs : List String) (s : IconState) (p : String)
    (hp : cs.find? e.png_ok = some p) :
    (cascade e cs s).2.m_png = some (Image.file p) ∧
      (cascade e cs s).2.default_icon = some (Image.file p) := by
  induction cs generalizing s with
  | nil => simp at hp
  | cons q qs ih =>
    simp only [cascade, default_icon_png_fst]
    cases h : e.png_ok q
    · simp only [List.find?, h] at hp
      simpa [h] using ih _ hp
    · simp only [List.find?, h, Option.some.injEq] at hp
      subst hp
      simp [h, default_icon_png]

theorem cascade_miss_icon (e : IconEnv) (cs : List String) (s : IconState)
    (hp : cs.find? e.png_ok = none) :
    (cascade e cs s).2.default_icon = s.default_icon := by
  induction cs generalizing s with
  | nil => simp [cascade]
  | cons q qs ih =>
    simp only [cascade, default_icon_png_fst]
    cases h : e.png_ok q
    · simp only [List.find?, h] at hp
      simp [h, ih _ hp, default_icon_png]
    · simp [List.find?, h] at hp

/-- C1. For every decoding assignment `png_ok`, `load_default_icon` (on a
launcher whose home is set) returns, and the constructor calls it makes are
exactly the candidates (1)-(5) in their fixed order up to and including the
first that decodes, followed by the embedded resource only if none decodes;
the icon set is that first decodable candidate. -/
theorem load_default_icon_first_loadable (e : IconEnv) (l : launcher) (s : IconState)
    (home : String) (hh : l.m_home = some home) :
    ∃ s', load_default_icon e l s = some s' ∧
      s'.tried = s.tried ++ (probed e.png_ok (icon_candidates e home)).map Image.file ++
        (if ((icon_candidates e home).find? e.png_ok).isSome then [] else [Image.embedded]) ∧
      (∀ p, (icon_candidates e home).find? e.png_ok = some p →
        s'.m_png = some (Image.file p) ∧ s'.default_icon = some (Image.file p)) ∧
      (s'.m_png = some Image.embedded → (icon_candidates e home).find? e.png_ok = none) := by
  refine ⟨_, load_default_icon_eq_resolve e l s home hh, ?_, ?_, ?_⟩
  · unfold resolve
    rw [cascade_fst]
    cases hf : ((icon_candidates e home).find? e.png_ok).isSome
    · simp [load_embedded_icon, cascade_tried]
      cases e.embedded_ok <;> simp
    · simp [cascade_tried]
  · intro p hp
    unfold resolve
    rw [cascade_fst, hp]
    simpa using cascade_hit e _ s p hp
  · intro hm
    cases hf : (icon_candidates e home).find? e.png_ok with
    | none => rfl
    | some p =>
      unfold resolve at hm
      rw [cascade_fst, hf] at hm
      simp [(cascade_hit e _ s p hf).1] at hm

/-- Witness for C1: a launcher started as `./launcher` with only the 48x48
theme icon installed. -/
theorem load_default_icon_first_loadable_witness :
    ∃ s', load_default_icon
        ⟨some "./launcher", some "/opt/launcher",
          fun p => p == "/usr/share/icons/hicolor/48x48/apps/alephone.png", true⟩
        ⟨some "/home/u", none, 0, 0⟩ ⟨none, none, []⟩ = some s' ∧
      s'.m_png = some (Image.file "/usr/share/icons/hicolor/48x48/apps/alephone.png") := by
  obtain ⟨s', h1, _, h3, _⟩ := load_default_icon_first_loadable
    ⟨some "./launcher", some "/opt/launcher",
      fun p => p == "/usr/share/icons/hicolor/48x48/apps/alephone.png", true⟩
    ⟨some "/home/u", none, 0, 0⟩ ⟨none, none, []⟩ "/home/u" rfl
  exact ⟨s', h1, (h3 _ (by decide)).1⟩

/-- After `load_default_icon` returns, `m_png` is non-null exactly when some
file candidate decodes or the embedded resource decodes. -/
theorem m_png_set_iff (e : IconEnv) (l : launcher) (s : IconState)
    (home : String) (hh : l.m_home = some home) :
    ∃ s', load_default_icon e l s = some s' ∧
      (s'.m_png ≠ none ↔
        ((icon_candidates e home).find? e.png_ok).isSome = true ∨ e.embedded_ok = true) ∧
      ((icon_candidates e home).find? e.png_ok = none → e.embedded_ok = true →
        s'.m_png = some Image.embedded ∧ s'.default_icon = some Image.embedded) := by
  have key : (resolve e (icon_candidates e home) s).m_png ≠ none ↔
      ((icon_candidates e home).find? e.png_ok).isSome = true ∨ e.embedded_ok = true := by
    unfold resolve
    rw [cascade_fst]
    cases hf : (icon_candidates e home).find? e.png_ok with
    | some p => simp [(cascade_hit e _ s p hf).1]
    | none =>
      cases he : e.embedded_ok <;> simp [load_embedded_icon, he]
  refine ⟨_, load_default_icon_eq_resolve e l s home hh, key, ?_⟩
  intro hf he
  unfold resolve
  rw [cascade_fst, hf]
  simp [load_embedded_icon, he]

/-- C9. Icon resolution never ends with no image: given that the embedded
resource decodes (the claim's premise; the resource is the constant
`input_gaming_png` compiled in from `res.h`), for every decoding assignment
to the file candidates `load_default_icon` returns with `m_png` non-null, and
when none of the file candidates decodes the icon set is the embedded one. -/
theorem load_default_icon_never_iconless (e : IconEnv) (l : launcher) (s : IconState)
    (home : String) (hh : l.m_home = some home) (hemb : e.embedded_ok = true) :
    ∃ s', load_default_icon e l s = some s' ∧ s'.m_png ≠ none ∧
      ((icon_candidates e home).find? e.png_ok = none →
        s'.m_png = some Image.embedded ∧ s'.default_icon = some Image.embedded) := by
  obtain ⟨s', h1, h2, h3⟩ := m_png_set_iff e l s home hh
  exact ⟨s', h1, h2.mpr (Or.inr hemb), fun hf => h3 hf hemb⟩

/-- Witness for C9: none of the file candidates decodes, and the embedded
icon is the one set. -/
theorem load_default_icon_never_iconless_witness :
    builtin_launcher.m_home = some "/home/u" ∧ barren_icons.embedded_ok = true ∧
    (icon_candidates barren_icons "/home/u").find? barren_icons.png_ok = none ∧
    ∃ s', load_default_icon barren_icons builtin_launcher ⟨none, none, []⟩ = some s' ∧
      s'.m_png = some Image.embedded := by
  obtain ⟨s', h1, _, h3⟩ := load_default_icon_never_iconless barren_icons builtin_launcher
    ⟨none, none, []⟩ "/home/u" rfl rfl
  exact ⟨rfl, rfl, by decide, s', h1, (h3 (by decide)).1⟩

/-! ## Purge and download -/

/-- One `remove_data` call appends its `nftw` call to the trace, returns
`false` exactly when the walk failed with an error other than `ENOENT`, and
then also appends the alert. -/
theorem remove_data_cases {σ : Type} (sys : Sys σ) (l : launcher) (dir : String) (w : World σ)
    (cd : String) (hcd : confdir l = some cd) :
    ∃ (ret : Int) (errno : Nat) (w' : World σ),
      remove_data sys l dir w = (some (decide ¬(ret ≠ 0 ∧ errno ≠ ENOENT)), w') ∧
      w'.trace = w.trace ++ Event.nftw (cd ++ dir) ret errno ::
        (if ret ≠ 0 ∧ errno ≠ ENOENT
          then [Event.fl_alert "Error" ("Failed to delete:\n" ++ (cd ++ dir))]
          else []) := by
  refine ⟨(sys.nftw_remove (cd ++ dir) w.st).1.1, (sys.nftw_remove (cd ++ dir) w.st).1.2,
    (remove_data sys l dir w).2, ?_, ?_⟩
  · simp only [remove_data, hcd, call_nftw, call_fl_alert]
    split_ifs with h <;> simp [h]
  · simp only [remove_data, hcd, call_nftw, call_fl_alert]
    split_ifs with h <;> simp [h]

/-- The runs of the purge-and-fetch part of `download`: it stops at the first
failing `remove_data`, and otherwise deletes the cached icon and runs the
built-in pipeline. -/
theorem download_purge_cases {σ : Type} (sys : Sys σ) (l : launcher) (w : World σ)
    (cd : String) (hcd : confdir l = some cd) :
    ∃ (r1 : Int) (e1 : Nat) (r2 : Int) (e2 : Nat) (r3 : Int) (e3 : Nat) (ri rx : Int),
      ((r1 ≠ 0 ∧ e1 ≠ ENOENT) ∧ (download_purge sys l w).1 = some false ∧
        (download_purge sys l w).2.trace = w.trace ++
          [Event.nftw (cd ++ "data-marathon-master") r1 e1,
           Event.fl_alert "Error" ("Failed to delete:\n" ++ (cd ++ "data-marathon-master"))]) ∨
      (¬(r1 ≠ 0 ∧ e1 ≠ ENOENT) ∧ (r2 ≠ 0 ∧ e2 ≠ ENOENT) ∧
        (download_purge sys l w).1 = some false ∧
        (download_purge sys l w).2.trace = w.trace ++
          [Event.nftw (cd ++ "data-marathon-master") r1 e1,
           Event.nftw (cd ++ "data-marathon-2-master") r2 e2,
           Event.fl_alert "Error" ("Failed to delete:\n" ++ (cd ++ "data-marathon-2-master"))]) ∨
      (¬(r1 ≠ 0 ∧ e1 ≠ ENOENT) ∧ ¬(r2 ≠ 0 ∧ e2 ≠ ENOENT) ∧ (r3 ≠ 0 ∧ e3 ≠ ENOENT) ∧
        (download_purge sys l w).1 = some false ∧
        (download_purge sys l w).2.trace = w.trace ++
          [Event.nftw (cd ++ "data-marathon-master") r1 e1,
           Event.nftw (cd ++ "data-marathon-2-master") r2 e2,
           Event.nftw (cd ++ "data-marathon-infinity-master") r3 e3,
           Event.fl_alert "Error"
             ("Failed to delete:\n" ++ (cd ++ "data-marathon-infinity-master"))]) ∨
      (¬(r1 ≠ 0 ∧ e1 ≠ ENOENT) ∧ ¬(r2 ≠ 0 ∧ e2 ≠ ENOENT) ∧ ¬(r3 ≠ 0 ∧ e3 ≠ ENOENT) ∧
        (download_purge sys l w).1 = some true ∧
        (download_purge sys l w).2.trace = w.trace ++
          [Event.nftw (cd ++ "data-marathon-master") r1 e1,
           Event.nftw (cd ++ "data-marathon-2-master") r2 e2,
           Event.nftw (cd ++ "data-marathon-infinity-master") r3 e3,
           Event.remove (cd ++ "alephone.png") ri,
           Event.system (builtin_command l) rx]) := by
  obtain ⟨r1, e1, w1, q1, t1⟩ := remove_data_cases sys l "data-marathon-master" w cd hcd
  obtain ⟨r2, e2, w2, q2, t2⟩ := remove_data_cases sys l "data-marathon-2-master" w1 cd hcd
  obtain ⟨r3, e3, w3, q3, t3⟩ := remove_data_cases sys l "data-marathon-infinity-master" w2 cd hcd
  refine ⟨r1, e1, r2, e2, r3, e3, (sys.remove (cd ++ "alephone.png") w3.st).1,
    (sys.system (builtin_command l) (sys.remove (cd ++ "alephone.png") w3.st).2).1, ?_⟩
  by_cases h1 : r1 ≠ 0 ∧ e1 ≠ ENOENT
  · left
    rw [show decide (¬(r1 ≠ 0 ∧ e1 ≠ ENOENT)) = false from by simp [h1]] at q1
    rw [if_pos h1] at t1
    simp [download_purge, q1, t1, h1]
  · right
    rw [show decide (¬(r1 ≠ 0 ∧ e1 ≠ ENOENT)) = true from by simp [h1]] at q1
    rw [if_neg h1] at t1
    by_cases h2 : r2 ≠ 0 ∧ e2 ≠ ENOENT
    · left
      rw [show decide (¬(r2 ≠ 0 ∧ e2 ≠ ENOENT)) = false from by simp [h2]] at q2
      rw [if_pos h2] at t2
      simp [download_purge, q1, q2, t1, t2, h1, h2]
    · right
      rw [show decide (¬(r2 ≠ 0 ∧ e2 ≠ ENOENT)) = true from by simp [h2]] at q2
      rw [if_neg h2] at t2
      by_cases h3 : r3 ≠ 0 ∧ e3 ≠ ENOENT
      · left
        rw [show decide (¬(r3 ≠ 0 ∧ e3 ≠ ENOENT)) = false from by simp [h3]] at q3
        rw [if_pos h3] at t3
        simp [download_purge, q1, q2, q3, t1, t2, t3, h1, h2, h3]
      · right
        rw [show decide (¬(r3 ≠ 0 ∧ e3 ≠ ENOENT)) = true from by simp [h3]] at q3
        rw [if_neg h3] at t3
        simp [download_purge, download_fetch, hcd, call_remove, command, q1, q2, q3, t1, t2, t3,
          h1, h2, h3]

theorem head_sprintf_fmt (x y : Int) (rest : String) :
    (sprintf_fmt x y ++ rest).data.head? = some 'x' := by
  simp [sprintf_fmt, String.data_append]

theorem builtin_command_ne_wget_check (l : launcher) : builtin_command l ≠ wget_check := by
  intro h
  have h2 := congrArg (fun t : String => t.data.head?) h
  simp only [builtin_command, head_sprintf_fmt] at h2
  revert h2
  decide

/-- The result of `all_directories_exist` is the conjunction of the three presence checks. -/
theorem all_directories_exist_eq {σ : Type} (sys : Sys σ) (l : launcher) (s : σ)
    (cd : String) (hcd : confdir l = some cd) :
    all_directories_exist sys l s = some
      (is_full_directory sys (cd ++ "data-marathon-master") s &&
        (is_full_directory sys (cd ++ "data-marathon-2-master") s &&
          is_full_directory sys (cd ++ "data-marathon-infinity-master") s)) := by
  simp only [all_directories_exist, paths, all_directories_exist_loop, hcd]
  cases is_full_directory sys (cd ++ "data-marathon-master") s <;>
    cases is_full_directory sys (cd ++ "data-marathon-2-master") s <;>
    cases is_full_directory sys (cd ++ "data-marathon-infinity-master") s <;> simp

/-- The runs of `download` with a custom script. -/
theorem download_cases_script {σ : Type} (sys : Sys σ) (l : launcher) (s : σ)
    (cd : String) (hcd : confdir l = some cd) (sc : String) (hs : l.m_script = some sc) :
    ∃ (rm rl a rx : Int),
      (a = 0 ∧ (download sys l ⟨s, []⟩).1 = some false ∧
        (download sys l ⟨s, []⟩).2.trace =
          [Event.mkdir cd 0o775 rm, Event.remove (cd ++ "download.log") rl,
           Event.fl_ask "Custom download script"
             ("Do you want to (re-)download the game files using this custom script?" ++
               "\n\n>> " ++ sc) a]) ∨
      (a ≠ 0 ∧ (download sys l ⟨s, []⟩).1 = some true ∧
        (download sys l ⟨s, []⟩).2.trace =
          [Event.mkdir cd 0o775 rm, Event.remove (cd ++ "download.log") rl,
           Event.fl_ask "Custom download script"
             ("Do you want to (re-)download the game files using this custom script?" ++
               "\n\n>> " ++ sc) a,
           Event.system (script_command l sc) rx]) := by
  refine ⟨(sys.mkdir cd 0o775 s).1, (sys.remove (cd ++ "download.log") (sys.mkdir cd 0o775 s).2).1,
    (sys.fl_ask "Custom download script"
      ("Do you want to (re-)download the game files using this custom script?" ++
        "\n\n>> " ++ sc) (state_at_tool_check sys cd s)).1,
    (sys.system (script_command l sc) (sys.fl_ask "Custom download script"
      ("Do you want to (re-)download the game files using this custom script?" ++
        "\n\n>> " ++ sc) (state_at_tool_check sys cd s)).2).1, ?_⟩
  simp only [download, hcd, hs, call_mkdir, call_remove, call_fl_ask, command, state_at_tool_check]
  split_ifs with h
  · left
    exact ⟨h, rfl, rfl⟩
  · right
    exact ⟨h, rfl, rfl⟩

/-- The runs of `download` with the built-in pipeline, up to the purge. -/
theorem download_cases_builtin {σ : Type} (sys : Sys σ) (l : launcher) (s : σ)
    (cd : String) (hcd : confdir l = some cd) (hs : l.m_script = none) :
    ∃ (rm rl c : Int), c = (sys.system wget_check (state_at_tool_check sys cd s)).1 ∧
      ((c ≠ 0 ∧ (download sys l ⟨s, []⟩).1 = some false ∧
        (download sys l ⟨s, []⟩).2.trace =
          [Event.mkdir cd 0o775 rm, Event.remove (cd ++ "download.log") rl,
           Event.system wget_check c,
           Event.fl_alert "Error" "`wget' is required to download the game files."]) ∨
      (c = 0 ∧ all_directories_exist sys l (state_at_presence_check sys cd s) = some false ∧
        ∃ w1 : World σ, download sys l ⟨s, []⟩ = download_purge sys l w1 ∧
          w1.trace = [Event.mkdir cd 0o775 rm, Event.remove (cd ++ "download.log") rl,
            Event.system wget_check c]) ∨
      (c = 0 ∧ all_directories_exist sys l (state_at_presence_check sys cd s) = some true ∧
        (download sys l ⟨s, []⟩).1 = some false ∧
        (download sys l ⟨s, []⟩).2.trace =
          [Event.mkdir cd 0o775 rm, Event.remove (cd ++ "download.log") rl,
           Event.system wget_check c,
           Event.fl_ask "Download again?" "Do you want to re-download the game files?" 0]) ∨
      (c = 0 ∧ all_directories_exist sys l (state_at_presence_check sys cd s) = some true ∧
        ∃ (a : Int) (w1 : World σ), a ≠ 0 ∧ download sys l ⟨s, []⟩ = download_purge sys l w1 ∧
          w1.trace = [Event.mkdir cd 0o775 rm, Event.remove (cd ++ "download.log") rl,
            Event.system wget_check c,
            Event.fl_ask "Download again?" "Do you want to re-download the game files?" a])) := by
  refine ⟨(sys.mkdir cd 0o775 s).1, (sys.remove (cd ++ "download.log") (sys.mkdir cd 0o775 s).2).1,
    _, rfl, ?_⟩
  have hade := all_directories_exist_eq sys l (state_at_presence_check sys cd s) cd hcd
  by_cases hc : (sys.system wget_check (state_at_tool_check sys cd s)).1 = 0
  · right
    cases hb : (is_full_directory sys (cd ++ "data-marathon-master")
        (state_at_presence_check sys cd s) &&
        (is_full_directory sys (cd ++ "data-marathon-2-master")
          (state_at_presence_check sys cd s) &&
          is_full_directory sys (cd ++ "data-marathon-infinity-master")
            (state_at_presence_check sys cd s)))
    · rw [hb] at hade
      left
      refine ⟨hc, hade, ⟨state_at_presence_check sys cd s, _⟩, ?_, rfl⟩
      simp only [state_at_presence_check, state_at_tool_check] at hade hc ⊢
      simp [download, hcd, hs, call_mkdir, call_remove, command, hade, hc]
    · rw [hb] at hade
      right
      by_cases ha : (sys.fl_ask "Download again?" "Do you want to re-download the game files?"
          (state_at_presence_check sys cd s)).1 = 0
      · left
        refine ⟨hc, hade, ?_, ?_⟩
        · simp only [state_at_presence_check, state_at_tool_check] at hade hc ha ⊢
          simp [download, hcd, hs, call_mkdir, call_remove, command, call_fl_ask, hade, hc, ha]
        · simp only [state_at_presence_check, state_at_tool_check] at hade hc ha ⊢
          simp [download, hcd, hs, call_mkdir, call_remove, command, call_fl_ask, hade, hc, ha]
      · right
        refine ⟨hc, hade, _, ⟨(sys.fl_ask "Download again?"
          "Do you want to re-download the game files?" (state_at_presence_check sys cd s)).2, _⟩,
          ha, ?_, rfl⟩
        simp only [state_at_presence_check, state_at_tool_check] at hade hc ha ⊢
        simp [download, hcd, hs, call_mkdir, call_remove, command, call_fl_ask, hade, hc, ha]
  · left
    refine ⟨hc, ?_, ?_⟩
    · simp only [state_at_tool_check] at hc ⊢
      simp [download, hcd, hs, call_mkdir, call_remove, command, error_message, call_fl_alert, hc]
    · simp only [state_at_tool_check] at hc ⊢
      simp [download, hcd, hs, call_mkdir, call_remove, command, error_message, call_fl_alert, hc]

/-! ## Presence check -/

theorem readdir_loop_iff (names : List String) :
    readdir_loop names = true ↔ ∃ n ∈ names, n ≠ "." ∧ n ≠ ".." := by
  induction names with
  | nil => simp [readdir_loop]
  | cons d rest ih =>
    unfold readdir_loop
    by_cases h : d ≠ "." ∧ d ≠ ".."
    · rw [if_pos h]
      exact ⟨fun _ => ⟨d, List.mem_cons_self _ _, h⟩, fun _ => rfl⟩
    · rw [if_neg h, ih]
      constructor
      · rintro ⟨n, hn, hp⟩
        exact ⟨n, List.mem_cons_of_mem _ hn, hp⟩
      · rintro ⟨n, hn, hp⟩
        rcases List.mem_cons.mp hn with rfl | hn
        · exact absurd hp h
        · exact ⟨n, hn, hp⟩

/-- C7. `is_full_directory(path)` is true exactly when `stat` succeeds, the
mode is a directory, `opendir` succeeds, and `readdir` yields a name other
than `.` and `..`; so it is false when `stat` fails, false when the listing
holds only `.` and `..`, and true when such a name occurs anywhere in the
listing. -/
theorem is_full_directory_iff {σ : Type} (sys : Sys σ) (path : String) (s : σ) :
    (is_full_directory sys path s = true ↔
      ∃ st, sys.stat path s = some st ∧ st.is_dir = true ∧
        ∃ names, sys.opendir path s = some names ∧ ∃ n ∈ names, n ≠ "." ∧ n ≠ "..") ∧
    (sys.stat path s = none → is_full_directory sys path s = false) ∧
    (∀ names, sys.opendir path s = some names → (∀ n ∈ names, n = "." ∨ n = "..") →
      is_full_directory sys path s = false) ∧
    (∀ st before n after, sys.stat path s = some st → st.is_dir = true →
      sys.opendir path s = some (before ++ n :: after) → n ≠ "." → n ≠ ".." →
      is_full_directory sys path s = true) := by
  have main : is_full_directory sys path s = true ↔
      ∃ st, sys.stat path s = some st ∧ st.is_dir = true ∧
        ∃ names, sys.opendir path s = some names ∧ ∃ n ∈ names, n ≠ "." ∧ n ≠ ".." := by
    unfold is_full_directory
    cases hst : sys.stat path s with
    | none => simp
    | some st =>
      cases hd : st.is_dir with
      | false => simp [hd]
      | true =>
        cases ho : sys.opendir path s with
        | none => simp [hd]
        | some names => simp [hd, readdir_loop_iff]
  refine ⟨main, ?_, ?_, ?_⟩
  · intro h
    simp [is_full_directory, h]
  · intro names ho hall
    cases hf : is_full_directory sys path s with
    | false => rfl
    | true =>
      obtain ⟨_, _, _, names', ho', n, hn, h1, h2⟩ := main.mp hf
      rw [ho] at ho'
      cases ho'
      rcases hall n hn with h | h
      · exact absurd h h1
      · exact absurd h h2
  · intro st before n after hst hd ho h1 h2
    exact main.mpr ⟨st, hst, hd, _, ho, n, by simp, h1, h2⟩

/-! ## Claims on the purge and on `download` -/

theorem append_left_ne (cd a b : String) (h : a ≠ b) : cd ++ a ≠ cd ++ b := by
  intro he
  apply h
  have h2 := congrArg String.data he
  simp only [String.data_append] at h2
  exact String.ext (List.append_cancel_left h2)

/-- A list that ends in its only element satisfying `p` splits around such an
element in one way only. -/
theorem split_at_last {α : Type} (p : α → Prop) (front : List α) (y : α)
    (hfront : ∀ a ∈ front, ¬p a) (pre post : List α) (x : α) (hx : p x)
    (h : front ++ [y] = pre ++ x :: post) : pre = front ∧ x = y ∧ post = [] := by
  induction front generalizing pre with
  | nil =>
    cases pre with
    | nil =>
      simp only [List.nil_append, List.cons.injEq] at h
      exact ⟨rfl, h.1.symm, h.2.symm⟩
    | cons a pre' =>
      simp only [List.nil_append, List.cons_append, List.cons.injEq] at h
      have := h.2
      simp at this
  | cons f front' ih =>
    cases pre with
    | nil =>
      simp only [List.nil_append, List.cons_append, List.cons.injEq] at h
      exact absurd (h.1 ▸ hx) (hfront f (List.mem_cons_self _ _))
    | cons a pre' =>
      simp only [List.cons_append, List.cons.injEq] at h
      obtain ⟨h1, h2, h3⟩ := ih (fun b hb => hfront b (List.mem_cons_of_mem _ hb)) pre' h.2
      exact ⟨by rw [h.1, h1], h2, h3⟩

/-- A failing walk inside the purge is the last thing the purge does apart
from its alert; the purge then returns `false` without removing the icon or
running the pipeline. -/
theorem download_purge_failure {σ : Type} (sys : Sys σ) (l : launcher) (w : World σ)
    (cd : String) (hcd : confdir l = some cd)
    (path : String) (ret : Int) (errno : Nat)
    (hfail : Event.nftw path ret errno ∈ (download_purge sys l w).2.trace)
    (hnew : Event.nftw path ret errno ∉ w.trace)
    (hr : ret ≠ 0) (he : errno ≠ ENOENT) :
    (download_purge sys l w).1 = some false ∧
    (∃ pre, (download_purge sys l w).2.trace =
      pre ++ [Event.nftw path ret errno, Event.fl_alert "Error" ("Failed to delete:\n" ++ path)]) ∧
    (∀ r, Event.remove (cd ++ "alephone.png") r ∈ (download_purge sys l w).2.trace →
      Event.remove (cd ++ "alephone.png") r ∈ w.trace) ∧
    (∀ r, Event.system (builtin_command l) r ∈ (download_purge sys l w).2.trace →
      Event.system (builtin_command l) r ∈ w.trace) := by
  obtain ⟨r1, e1, r2, e2, r3, e3, ri, rx, hp⟩ := download_purge_cases sys l w cd hcd
  rcases hp with ⟨f1, hres, ht⟩ | ⟨n1, f2, hres, ht⟩ | ⟨n1, n2, f3, hres, ht⟩ |
    ⟨n1, n2, n3, hres, ht⟩
  · rw [ht] at hfail ⊢
    simp only [List.mem_append, List.mem_cons, List.mem_singleton, reduceCtorEq,
      Event.nftw.injEq, false_or, or_false, List.not_mem_nil, hnew] at hfail
    obtain ⟨rfl, rfl, rfl⟩ := hfail
    refine ⟨hres, ⟨w.trace, rfl⟩, ?_, ?_⟩ <;> simp
  · rw [ht] at hfail ⊢
    simp only [List.mem_append, List.mem_cons, List.mem_singleton, reduceCtorEq,
      Event.nftw.injEq, false_or, or_false, List.not_mem_nil, hnew] at hfail
    rcases hfail with ⟨rfl, rfl, rfl⟩ | ⟨rfl, rfl, rfl⟩
    · exact absurd ⟨hr, he⟩ n1
    · refine ⟨hres, ⟨w.trace ++ [Event.nftw (cd ++ "data-marathon-master") r1 e1], by simp⟩,
        ?_, ?_⟩ <;> simp
  · rw [ht] at hfail ⊢
    simp only [List.mem_append, List.mem_cons, List.mem_singleton, reduceCtorEq,
      Event.nftw.injEq, false_or, or_false, List.not_mem_nil, hnew] at hfail
    rcases hfail with ⟨rfl, rfl, rfl⟩ | ⟨rfl, rfl, rfl⟩ | ⟨rfl, rfl, rfl⟩
    · exact absurd ⟨hr, he⟩ n1
    · exact absurd ⟨hr, he⟩ n2
    · refine ⟨hres, ⟨w.trace ++ [Event.nftw (cd ++ "data-marathon-master") r1 e1,
        Event.nftw (cd ++ "data-marathon-2-master") r2 e2], by simp⟩, ?_, ?_⟩ <;> simp
  · rw [ht] at hfail
    simp only [List.mem_append, List.mem_cons, List.mem_singleton, reduceCtorEq,
      Event.nftw.injEq, false_or, or_false, List.not_mem_nil, hnew] at hfail
    rcases hfail with ⟨rfl, rfl, rfl⟩ | ⟨rfl, rfl, rfl⟩ | ⟨rfl, rfl, rfl⟩
    · exact absurd ⟨hr, he⟩ n1
    · exact absurd ⟨hr, he⟩ n2
    · exact absurd ⟨hr, he⟩ n3

/-- C5. With the built-in pipeline, a failing `remove_data` (a walk that
returns non-zero with an `errno` other than `ENOENT`) aborts `download`: it
returns `false`, the failed walk and its alert are the last calls made, the
cached icon is never removed and the pipeline is never run. -/
theorem download_aborts_on_purge_failure {σ : Type} (sys : Sys σ) (l : launcher) (s : σ)
    (cd : String) (hcd : confdir l = some cd) (hs : l.m_script = none)
    (path : String) (ret : Int) (errno : Nat)
    (hfail : Event.nftw path ret errno ∈ (download sys l ⟨s, []⟩).2.trace)
    (hr : ret ≠ 0) (he : errno ≠ ENOENT) :
    (download sys l ⟨s, []⟩).1 = some false ∧
    (∃ pre, (download sys l ⟨s, []⟩).2.trace =
      pre ++ [Event.nftw path ret errno, Event.fl_alert "Error" ("Failed to delete:\n" ++ path)]) ∧
    (∀ r, Event.remove (cd ++ "alephone.png") r ∉ (download sys l ⟨s, []⟩).2.trace) ∧
    (∀ r, Event.system (builtin_command l) r ∉ (download sys l ⟨s, []⟩).2.trace) := by
  have hne : cd ++ "alephone.png" ≠ cd ++ "download.log" := append_left_ne cd _ _ (by decide)
  have hcmd := builtin_command_ne_wget_check l
  obtain ⟨rm, rl, c, -, hcase⟩ := download_cases_builtin sys l s cd hcd hs
  rcases hcase with ⟨_, _, ht⟩ | ⟨_, _, w1, hw, ht1⟩ | ⟨_, _, _, ht⟩ | ⟨_, _, a, w1, _, hw, ht1⟩
  · rw [ht] at hfail
    simp at hfail
  · rw [hw] at hfail ⊢
    obtain ⟨h1, h2, h3, h4⟩ := download_purge_failure sys l w1 cd hcd path ret errno hfail
      (by simp [ht1]) hr he
    refine ⟨h1, h2, fun r hin => ?_, fun r hin => ?_⟩
    · have := h3 r hin
      simp [ht1, hne] at this
    · have := h4 r hin
      simp [ht1, hcmd] at this
  · rw [ht] at hfail
    simp at hfail
  · rw [hw] at hfail ⊢
    obtain ⟨h1, h2, h3, h4⟩ := download_purge_failure sys l w1 cd hcd path ret errno hfail
      (by simp [ht1]) hr he
    refine ⟨h1, h2, fun r hin => ?_, fun r hin => ?_⟩
    · have := h3 r hin
      simp [ht1, hne] at this
    · have := h4 r hin
      simp [ht1, hcmd] at this

/-- C6. With the built-in pipeline, whenever `download` spawns the fetch
pipeline, the `nftw` walks made before the spawn are exactly those of the
three data directories under `confdir()`, in order, each one successful for
`remove_data` (it returned zero or ended with `ENOENT`); nothing follows the
spawn. -/
theorem download_purge_before_fetch {σ : Type} (sys : Sys σ) (l : launcher) (s : σ)
    (cd : String) (hcd : confdir l = some cd) (hs : l.m_script = none)
    (pre post : List Event) (rx : Int)
    (hrun : (download sys l ⟨s, []⟩).2.trace = pre ++ Event.system (builtin_command l) rx :: post) :
    ∃ (r1 : Int) (e1 : Nat) (r2 : Int) (e2 : Nat) (r3 : Int) (e3 : Nat),
      pre.filter Event.is_nftw =
        [Event.nftw (cd ++ "data-marathon-master") r1 e1,
         Event.nftw (cd ++ "data-marathon-2-master") r2 e2,
         Event.nftw (cd ++ "data-marathon-infinity-master") r3 e3] ∧
      ¬(r1 ≠ 0 ∧ e1 ≠ ENOENT) ∧ ¬(r2 ≠ 0 ∧ e2 ≠ ENOENT) ∧ ¬(r3 ≠ 0 ∧ e3 ≠ ENOENT) ∧
      post = [] ∧ (download sys l ⟨s, []⟩).1 = some true := by
  have hcmd := builtin_command_ne_wget_check l
  have hmem : Event.system (builtin_command l) rx ∈ (download sys l ⟨s, []⟩).2.trace := by
    rw [hrun]
    simp
  have key : ∀ w1 : World σ, download sys l ⟨s, []⟩ = download_purge sys l w1 →
      (∀ ev ∈ w1.trace, ¬(∃ r, ev = Event.system (builtin_command l) r)) →
      w1.trace.filter Event.is_nftw = [] →
      ∃ (r1 : Int) (e1 : Nat) (r2 : Int) (e2 : Nat) (r3 : Int) (e3 : Nat),
        pre.filter Event.is_nftw =
          [Event.nftw (cd ++ "data-marathon-master") r1 e1,
           Event.nftw (cd ++ "data-marathon-2-master") r2 e2,
           Event.nftw (cd ++ "data-marathon-infinity-master") r3 e3] ∧
        ¬(r1 ≠ 0 ∧ e1 ≠ ENOENT) ∧ ¬(r2 ≠ 0 ∧ e2 ≠ ENOENT) ∧ ¬(r3 ≠ 0 ∧ e3 ≠ ENOENT) ∧
        post = [] ∧ (download sys l ⟨s, []⟩).1 = some true := by
    intro w1 hw hno hfil
    rw [hw] at hrun hmem ⊢
    obtain ⟨r1, e1, r2, e2, r3, e3, ri, rx', hp⟩ := download_purge_cases sys l w1 cd hcd
    rcases hp with ⟨f1, hres, ht⟩ | ⟨n1, f2, hres, ht⟩ | ⟨n1, n2, f3, hres, ht⟩ |
      ⟨n1, n2, n3, hres, ht⟩
    · rw [ht] at hmem
      simp only [List.mem_append, List.mem_cons, List.mem_singleton, reduceCtorEq,
        or_false, List.not_mem_nil] at hmem
      exact absurd ⟨rx, rfl⟩ (hno _ hmem)
    · rw [ht] at hmem
      simp only [List.mem_append, List.mem_cons, List.mem_singleton, reduceCtorEq,
        or_false, List.not_mem_nil] at hmem
      exact absurd ⟨rx, rfl⟩ (hno _ hmem)
    · rw [ht] at hmem
      simp only [List.mem_append, List.mem_cons, List.mem_singleton, reduceCtorEq,
        or_false, List.not_mem_nil] at hmem
      exact absurd ⟨rx, rfl⟩ (hno _ hmem)
    · rw [ht] at hrun
      have hsplit := split_at_last (fun ev => ∃ r, ev = Event.system (builtin_command l) r)
        (w1.trace ++ [Event.nftw (cd ++ "data-marathon-master") r1 e1,
          Event.nftw (cd ++ "data-marathon-2-master") r2 e2,
          Event.nftw (cd ++ "data-marathon-infinity-master") r3 e3,
          Event.remove (cd ++ "alephone.png") ri])
        (Event.system (builtin_command l) rx')
        (by
          intro ev hev
          simp only [List.mem_append, List.mem_cons, List.mem_singleton,
            List.not_mem_nil, or_false] at hev
          rcases hev with hev | rfl | rfl | rfl | rfl
          · exact hno ev hev
          all_goals simp)
        pre post (Event.system (builtin_command l) rx) ⟨rx, rfl⟩ (by simpa using hrun)
      obtain ⟨hpre, -, hpost⟩ := hsplit
      refine ⟨r1, e1, r2, e2, r3, e3, ?_, n1, n2, n3, hpost, hres⟩
      rw [hpre]
      simp [List.filter_append, hfil, Event.is_nftw, List.filter]
  obtain ⟨rm, rl, c, -, hcase⟩ := download_cases_builtin sys l s cd hcd hs
  rcases hcase with ⟨_, _, ht⟩ | ⟨_, _, w1, hw, ht1⟩ | ⟨_, _, _, ht⟩ | ⟨_, _, a, w1, _, hw, ht1⟩
  · rw [ht] at hmem
    simp [hcmd] at hmem
  · exact key w1 hw (by simp [ht1, hcmd, hcmd.symm]) (by simp [ht1, Event.is_nftw, List.filter])
  · rw [ht] at hmem
    simp [hcmd] at hmem
  · exact key w1 hw (by simp [ht1, hcmd, hcmd.symm]) (by simp [ht1, Event.is_nftw, List.filter])

/-- Witness for C5: the second data directory is write-protected. -/
theorem download_aborts_on_purge_failure_witness :
    Event.nftw "/home/u/.alephone/data-marathon-2-master" (-1) EACCES ∈
      (download willing_sys builtin_launcher ⟨locked_home, []⟩).2.trace ∧
    (download willing_sys builtin_launcher ⟨locked_home, []⟩).1 = some false :=
  ⟨by decide,
   (download_aborts_on_purge_failure willing_sys builtin_launcher locked_home
      "/home/u/.alephone/" rfl rfl "/home/u/.alephone/data-marathon-2-master" (-1) EACCES
      (by decide) (by decide) (by decide)).1⟩

set_option maxRecDepth 100000 in
/-- Witness for C6: a full re-download that the user confirms. -/
theorem download_purge_before_fetch_witness :
    ∃ pre rx, (download willing_sys builtin_launcher ⟨full_home, []⟩).2.trace =
        pre ++ [Event.system (builtin_command builtin_launcher) rx] ∧
      (pre.filter Event.is_nftw).length = 3 := by
  have hrun : (download willing_sys builtin_launcher ⟨full_home, []⟩).2.trace =
      (download willing_sys builtin_launcher ⟨full_home, []⟩).2.trace.take 8 ++
        Event.system (builtin_command builtin_launcher) 0 :: [] := by decide
  obtain ⟨r1, e1, r2, e2, r3, e3, hf, -⟩ := download_purge_before_fetch willing_sys
    builtin_launcher full_home "/home/u/.alephone/" rfl rfl _ [] 0 hrun
  exact ⟨_, 0, hrun, by rw [hf]; rfl⟩

/-- Witness for C7: a data directory with content is full. -/
theorem is_full_directory_iff_witness :
    is_full_directory willing_sys "/home/u/.alephone/data-marathon-2-master" full_home = true :=
  (is_full_directory_iff willing_sys "/home/u/.alephone/data-marathon-2-master" full_home).2.2.2
    ⟨true⟩ [".", ".."] "Scripts" [] (by decide) rfl (by decide) (by decide) (by decide)

/-- What `remove_data(dir)` does with the result of the walk: it returns
`false` exactly when the walk of `confdir() + dir` returns non-zero with an
`errno` other than `ENOENT`, and then it has shown the alert; otherwise it
returns `true` and does nothing beyond the walk. -/
theorem remove_data_result {σ : Type} (sys : Sys σ) (l : launcher) (dir : String)
    (w : World σ) (cd : String) (hcd : confdir l = some cd) :
    ((remove_data sys l dir w).1 = some false ↔
      (sys.nftw_remove (cd ++ dir) w.st).1.1 ≠ 0 ∧
        (sys.nftw_remove (cd ++ dir) w.st).1.2 ≠ ENOENT) ∧
    ((remove_data sys l dir w).1 = some false →
      (remove_data sys l dir w).2.trace = w.trace ++
        [Event.nftw (cd ++ dir) (sys.nftw_remove (cd ++ dir) w.st).1.1
            (sys.nftw_remove (cd ++ dir) w.st).1.2,
          Event.fl_alert "Error" ("Failed to delete:\n" ++ (cd ++ dir))]) ∧
    ((remove_data sys l dir w).1 ≠ some false →
      (remove_data sys l dir w).1 = some true ∧
      (remove_data sys l dir w).2.st = (sys.nftw_remove (cd ++ dir) w.st).2 ∧
      (remove_data sys l dir w).2.trace = w.trace ++
        [Event.nftw (cd ++ dir) (sys.nftw_remove (cd ++ dir) w.st).1.1
            (sys.nftw_remove (cd ++ dir) w.st).1.2]) := by
  refine ⟨?_, ?_, ?_⟩
  · simp only [remove_data, hcd, call_nftw, call_fl_alert]
    split_ifs with h <;> simp [h]
  · simp only [remove_data, hcd, call_nftw, call_fl_alert]
    split_ifs with h <;> simp
  · simp only [remove_data, hcd, call_nftw, call_fl_alert]
    split_ifs with h <;> simp

/-- The purge-and-fetch part of `download` shows no confirmation prompt. -/
theorem download_purge_no_ask {σ : Type} (sys : Sys σ) (l : launcher) (w : World σ)
    (cd : String) (hcd : confdir l = some cd) (t m : String) (a : Int)
    (h : Event.fl_ask t m a ∈ (download_purge sys l w).2.trace) :
    Event.fl_ask t m a ∈ w.trace := by
  obtain ⟨r1, e1, r2, e2, r3, e3, ri, rx, hp⟩ := download_purge_cases sys l w cd hcd
  rcases hp with ⟨_, _, ht⟩ | ⟨_, _, _, ht⟩ | ⟨_, _, _, _, ht⟩ | ⟨_, _, _, _, ht⟩ <;>
    · rw [ht] at h
      simpa using h

/-- The purge-and-fetch part of `download` starts with the walk of the first
data directory. -/
theorem download_purge_first {σ : Type} (sys : Sys σ) (l : launcher) (w : World σ)
    (cd : String) (hcd : confdir l = some cd) :
    ∃ (r1 : Int) (e1 : Nat) (rest : List Event), (download_purge sys l w).2.trace =
      w.trace ++ Event.nftw (cd ++ "data-marathon-master") r1 e1 :: rest := by
  obtain ⟨r1, e1, r2, e2, r3, e3, ri, rx, hp⟩ := download_purge_cases sys l w cd hcd
  rcases hp with ⟨_, _, ht⟩ | ⟨_, _, _, ht⟩ | ⟨_, _, _, _, ht⟩ | ⟨_, _, _, _, ht⟩ <;>
    exact ⟨r1, e1, _, ht⟩

/-- C2 fails as stated: with the built-in pipeline and all three data
directories present and non-empty, a failing tool check ends `download`
before any confirmation prompt. -/
theorem download_no_prompt_without_wget :
    is_full_directory no_wget_sys "/home/u/.alephone/data-marathon-master" full_home = true ∧
    is_full_directory no_wget_sys "/home/u/.alephone/data-marathon-2-master" full_home = true ∧
    is_full_directory no_wget_sys "/home/u/.alephone/data-marathon-infinity-master" full_home
      = true ∧
    builtin_launcher.m_script = none ∧
    (download no_wget_sys builtin_launcher ⟨full_home, []⟩).2.trace =
      [Event.mkdir "/home/u/.alephone/" 0o775 (-1),
       Event.remove "/home/u/.alephone/download.log" 0,
       Event.system "wget --version 2>/dev/null >/dev/null" 1,
       Event.fl_alert "Error" "`wget' is required to download the game files."] := by
  decide

/-- C2, amended. With a custom script `download` always shows the
confirmation prompt.  With the built-in pipeline it shows the prompt when the
tool check succeeds and all three data directories are present and non-empty
at that moment; when one of them is absent or empty it shows no prompt at
all and, if the tool check succeeds, goes straight on to the purge; and when
the tool check fails it shows no prompt, whatever is present. -/
theorem download_confirmation_gating {σ : Type} (sys : Sys σ) (l : launcher) (s : σ)
    (cd : String) (hcd : confdir l = some cd) :
    (∀ sc, l.m_script = some sc → ∃ a,
      Event.fl_ask "Custom download script"
        ("Do you want to (re-)download the game files using this custom script?" ++
          "\n\n>> " ++ sc) a ∈ (download sys l ⟨s, []⟩).2.trace) ∧
    (l.m_script = none →
      (sys.system wget_check (state_at_tool_check sys cd s)).1 = 0 →
      is_full_directory sys (cd ++ "data-marathon-master")
        (state_at_presence_check sys cd s) = true →
      is_full_directory sys (cd ++ "data-marathon-2-master")
        (state_at_presence_check sys cd s) = true →
      is_full_directory sys (cd ++ "data-marathon-infinity-master")
        (state_at_presence_check sys cd s) = true →
      ∃ a, Event.fl_ask "Download again?" "Do you want to re-download the game files?" a ∈
        (download sys l ⟨s, []⟩).2.trace) ∧
    (l.m_script = none →
      ¬(is_full_directory sys (cd ++ "data-marathon-master")
          (state_at_presence_check sys cd s) = true ∧
        is_full_directory sys (cd ++ "data-marathon-2-master")
          (state_at_presence_check sys cd s) = true ∧
        is_full_directory sys (cd ++ "data-marathon-infinity-master")
          (state_at_presence_check sys cd s) = true) →
      (∀ t m a, Event.fl_ask t m a ∉ (download sys l ⟨s, []⟩).2.trace) ∧
      ((sys.system wget_check (state_at_tool_check sys cd s)).1 = 0 →
        ∃ (rm rl : Int) (r1 : Int) (e1 : Nat) (rest : List Event),
          (download sys l ⟨s, []⟩).2.trace =
            Event.mkdir cd 0o775 rm :: Event.remove (cd ++ "download.log") rl ::
              Event.system wget_check 0 ::
                Event.nftw (cd ++ "data-marathon-master") r1 e1 :: rest)) ∧
    (l.m_script = none →
      (sys.system wget_check (state_at_tool_check sys cd s)).1 ≠ 0 →
      ∀ t m a, Event.fl_ask t m a ∉ (download sys l ⟨s, []⟩).2.trace) := by
  refine ⟨?_, ?_, ?_, ?_⟩
  · intro sc hs
    obtain ⟨rm, rl, a, rx, h | h⟩ := download_cases_script sys l s cd hcd sc hs
    · exact ⟨a, by rw [h.2.2]; simp⟩
    · exact ⟨a, by rw [h.2.2]; simp⟩
  · intro hs hc h1 h2 h3
    have hade := all_directories_exist_eq sys l (state_at_presence_check sys cd s) cd hcd
    rw [h1, h2, h3] at hade
    obtain ⟨rm, rl, c, hceq, hcase⟩ := download_cases_builtin sys l s cd hcd hs
    rcases hcase with ⟨hne, _, _⟩ | ⟨_, hf, _⟩ | ⟨_, _, _, ht⟩ | ⟨_, _, a, w1, _, hw, ht1⟩
    · exact absurd (hceq.trans hc) hne
    · rw [hade] at hf
      simp at hf
    · exact ⟨0, by rw [ht]; simp⟩
    · obtain ⟨r1, e1, rest, hp⟩ := download_purge_first sys l w1 cd hcd
      exact ⟨a, by rw [hw, hp, ht1]; simp⟩
  · intro hs hnot
    have hade := all_directories_exist_eq sys l (state_at_presence_check sys cd s) cd hcd
    have hfalse : all_directories_exist sys l (state_at_presence_check sys cd s) = some false := by
      rw [hade]
      congr 1
      cases h1 : is_full_directory sys (cd ++ "data-marathon-master")
          (state_at_presence_check sys cd s) <;>
        cases h2 : is_full_directory sys (cd ++ "data-marathon-2-master")
          (state_at_presence_check sys cd s) <;>
        cases h3 : is_full_directory sys (cd ++ "data-marathon-infinity-master")
          (state_at_presence_check sys cd s) <;> simp_all
    obtain ⟨rm, rl, c, hceq, hcase⟩ := download_cases_builtin sys l s cd hcd hs
    rcases hcase with ⟨hne, _, ht⟩ | ⟨hc0, _, w1, hw, ht1⟩ | ⟨_, ht, _⟩ | ⟨_, ht, _⟩
    · refine ⟨fun t m a hin => ?_, fun hc => absurd (hceq.trans hc) hne⟩
      rw [ht] at hin
      simp at hin
    · refine ⟨fun t m a hin => ?_, fun _ => ?_⟩
      · rw [hw] at hin
        have := download_purge_no_ask sys l w1 cd hcd t m a hin
        rw [ht1] at this
        simp at this
      · obtain ⟨r1, e1, rest, hp⟩ := download_purge_first sys l w1 cd hcd
        refine ⟨rm, rl, r1, e1, rest, ?_⟩
        rw [hw, hp, ht1, hc0]
        rfl
    · rw [hfalse] at ht
      simp at ht
    · rw [hfalse] at ht
      simp at ht
  · intro hs hfail t m a hin
    obtain ⟨rm, rl, c, hceq, hcase⟩ := download_cases_builtin sys l s cd hcd hs
    rcases hcase with ⟨_, _, ht⟩ | ⟨hc0, _⟩ | ⟨hc0, _⟩ | ⟨hc0, _⟩
    · rw [ht] at hin
      simp at hin
    · exact hfail (hceq.symm.trans hc0)
    · exact hfail (hceq.symm.trans hc0)
    · exact hfail (hceq.symm.trans hc0)

/-- Witness for the amended C2: the three data directories are present,
`wget` is available, and the prompt is shown. -/
theorem download_confirmation_gating_witness :
    confdir builtin_launcher = some "/home/u/.alephone/" ∧
    builtin_launcher.m_script = none ∧
    ∃ a, Event.fl_ask "Download again?" "Do you want to re-download the game files?" a ∈
      (download willing_sys builtin_launcher ⟨full_home, []⟩).2.trace :=
  ⟨rfl, rfl,
   (download_confirmation_gating willing_sys builtin_launcher full_home "/home/u/.alephone/"
      rfl).2.1 rfl (by decide) (by decide) (by decide) (by decide)⟩

/-- C3 fails as stated: the user declines the custom-script prompt, yet
`download` has already created the configuration directory. -/
theorem download_declined_creates_confdir :
    Event.fl_ask "Custom download script"
        "Do you want to (re-)download the game files using this custom script?\n\n>> dl.sh" 0 ∈
      (download declining_sys script_launcher ⟨fresh_home, []⟩).2.trace ∧
    (download declining_sys script_launcher ⟨fresh_home, []⟩).1 = some false ∧
    fresh_home.stat "/home/u/.alephone/" = none ∧
    (download declining_sys script_launcher ⟨fresh_home, []⟩).2.st.stat "/home/u/.alephone/"
      = some ⟨true⟩ := by
  decide

/-- C3, amended. When the user declines the confirmation prompt, `download`
returns `false` and the prompt is the last call it makes: no data directory
is walked, the cached icon is not removed and no terminal is spawned.  The
calls made before the prompt are the initial `mkdir(confdir(), 0775)` and
`remove(confdir() + "download.log")` and, with the built-in pipeline, the
successful tool check. -/
theorem download_declined {σ : Type} (sys : Sys σ) (l : launcher) (s : σ)
    (cd : String) (hcd : confdir l = some cd) (t m : String)
    (hdecl : Event.fl_ask t m 0 ∈ (download sys l ⟨s, []⟩).2.trace) :
    (download sys l ⟨s, []⟩).1 = some false ∧
    ∃ rm rl : Int, (download sys l ⟨s, []⟩).2.trace =
      Event.mkdir cd 0o775 rm :: Event.remove (cd ++ "download.log") rl ::
        ((match l.m_script with
          | some _ => []
          | none => [Event.system wget_check 0]) ++ [Event.fl_ask t m 0]) := by
  cases hs : l.m_script with
  | some sc =>
    obtain ⟨rm, rl, a, rx, ⟨ha, hres, ht⟩ | ⟨ha, hres, ht⟩⟩ :=
      download_cases_script sys l s cd hcd sc hs
    · rw [ht] at hdecl
      simp only [List.mem_cons, List.mem_singleton, reduceCtorEq, Event.fl_ask.injEq, false_or,
        List.not_mem_nil, or_false] at hdecl
      obtain ⟨rfl, rfl, -⟩ := hdecl
      exact ⟨hres, rm, rl, by rw [ht, ha]; rfl⟩
    · rw [ht] at hdecl
      simp only [List.mem_cons, List.mem_singleton, reduceCtorEq, Event.fl_ask.injEq, false_or,
        List.not_mem_nil, or_false] at hdecl
      exact absurd hdecl.2.2.symm ha
  | none =>
    obtain ⟨rm, rl, c, -, hcase⟩ := download_cases_builtin sys l s cd hcd hs
    rcases hcase with ⟨_, _, ht⟩ | ⟨_, _, w1, hw, ht1⟩ | ⟨hc, _, hres, ht⟩ |
      ⟨_, _, a, w1, ha, hw, ht1⟩
    · rw [ht] at hdecl
      simp at hdecl
    · rw [hw] at hdecl
      have := download_purge_no_ask sys l w1 cd hcd t m 0 hdecl
      rw [ht1] at this
      simp at this
    · rw [ht] at hdecl
      simp only [List.mem_cons, List.mem_singleton, reduceCtorEq, Event.fl_ask.injEq, false_or,
        List.not_mem_nil, or_false] at hdecl
      obtain ⟨rfl, rfl, -⟩ := hdecl
      exact ⟨hres, rm, rl, by rw [ht, hc]; rfl⟩
    · rw [hw] at hdecl
      have := download_purge_no_ask sys l w1 cd hcd t m 0 hdecl
      rw [ht1] at this
      simp only [List.mem_cons, List.mem_singleton, reduceCtorEq, Event.fl_ask.injEq, false_or,
        List.not_mem_nil, or_false] at this
      exact absurd this.2.2.symm ha

/-- Witness for the amended C3: the user declines the re-download of a full
data set. -/
theorem download_declined_witness :
    Event.fl_ask "Download again?" "Do you want to re-download the game files?" 0 ∈
      (download declining_sys builtin_launcher ⟨full_home, []⟩).2.trace ∧
    (download declining_sys builtin_launcher ⟨full_home, []⟩).1 = some false :=
  ⟨by decide,
   (download_declined declining_sys builtin_launcher full_home "/home/u/.alephone/" rfl
      "Download again?" "Do you want to re-download the game files?" (by decide)).1⟩

/-- C4 fails as stated: the tool check fails, yet `download` has already
removed the download log. -/
theorem download_without_wget_removes_log :
    (download no_wget_sys builtin_launcher ⟨full_home, []⟩).2.trace =
      [Event.mkdir "/home/u/.alephone/" 0o775 (-1),
       Event.remove "/home/u/.alephone/download.log" 0,
       Event.system "wget --version 2>/dev/null >/dev/null" 1,
       Event.fl_alert "Error" "`wget' is required to download the game files."] ∧
    (download no_wget_sys builtin_launcher ⟨full_home, []⟩).1 = some false ∧
    full_home.stat "/home/u/.alephone/download.log" = some ⟨false⟩ ∧
    (download no_wget_sys builtin_launcher ⟨full_home, []⟩).2.st.stat
      "/home/u/.alephone/download.log" = none := by
  decide

/-- C4, amended. With the built-in pipeline, when the tool check fails,
`download` shows the error message and returns `false`; no data directory
has been walked and the cached icon has not been removed.  The only calls
made before the check are the initial `mkdir(confdir(), 0775)` and
`remove(confdir() + "download.log")`. -/
theorem download_wget_missing {σ : Type} (sys : Sys σ) (l : launcher) (s : σ)
    (cd : String) (hcd : confdir l = some cd) (hs : l.m_script = none)
    (c : Int) (hc : c ≠ 0)
    (hprobe : Event.system wget_check c ∈ (download sys l ⟨s, []⟩).2.trace) :
    (download sys l ⟨s, []⟩).1 = some false ∧
    ∃ rm rl : Int, (download sys l ⟨s, []⟩).2.trace =
      [Event.mkdir cd 0o775 rm, Event.remove (cd ++ "download.log") rl,
       Event.system wget_check c,
       Event.fl_alert "Error" "`wget' is required to download the game files."] := by
  have hcmd := builtin_command_ne_wget_check l
  have purge : ∀ w1 : World σ, Event.system wget_check c ∈ (download_purge sys l w1).2.trace →
      Event.system wget_check c ∈ w1.trace := by
    intro w1 hin
    obtain ⟨r1, e1, r2, e2, r3, e3, ri, rx, hp⟩ := download_purge_cases sys l w1 cd hcd
    rcases hp with ⟨_, _, ht⟩ | ⟨_, _, _, ht⟩ | ⟨_, _, _, _, ht⟩ | ⟨_, _, _, _, ht⟩ <;>
      · rw [ht] at hin
        simpa [hcmd.symm] using hin
  obtain ⟨rm, rl, c', -, hcase⟩ := download_cases_builtin sys l s cd hcd hs
  rcases hcase with ⟨_, hres, ht⟩ | ⟨hc0, _, w1, hw, ht1⟩ | ⟨hc0, _, _, ht⟩ |
    ⟨hc0, _, a, w1, _, hw, ht1⟩
  · rw [ht] at hprobe
    simp only [List.mem_cons, List.mem_singleton, reduceCtorEq, Event.system.injEq, false_or,
      List.not_mem_nil, or_false, true_and] at hprobe
    subst hprobe
    exact ⟨hres, rm, rl, ht⟩
  · rw [hw] at hprobe
    have := purge w1 hprobe
    rw [ht1, hc0] at this
    simp only [List.mem_cons, List.mem_singleton, reduceCtorEq, Event.system.injEq, false_or,
      List.not_mem_nil, or_false, true_and] at this
    exact absurd this hc
  · rw [ht, hc0] at hprobe
    simp only [List.mem_cons, List.mem_singleton, reduceCtorEq, Event.system.injEq, false_or,
      List.not_mem_nil, or_false, true_and] at hprobe
    exact absurd hprobe hc
  · rw [hw] at hprobe
    have := purge w1 hprobe
    rw [ht1, hc0] at this
    simp only [List.mem_cons, List.mem_singleton, reduceCtorEq, Event.system.injEq, false_or,
      List.not_mem_nil, or_false, true_and] at this
    exact absurd this hc

/-- Witness for the amended C4: a machine without `wget`. -/
theorem download_wget_missing_witness :
    Event.system wget_check 1 ∈ (download no_wget_sys builtin_launcher ⟨fresh_home, []⟩).2.trace ∧
    (download no_wget_sys builtin_launcher ⟨fresh_home, []⟩).1 = some false :=
  ⟨by decide,
   (download_wget_missing no_wget_sys builtin_launcher fresh_home "/home/u/.alephone/" rfl rfl
      1 (by decide) (by decide)).1⟩

/-! ## The file tree: paths and lookups -/

theorem split_slash_ne_nil (cs : List Char) : split_slash cs ≠ [] := by
  cases cs with
  | nil => simp [split_slash]
  | cons c cs =>
    unfold split_slash
    split_ifs
    · simp
    · split <;> simp

theorem split_slash_cons (c : Char) (cs : List Char) :
    split_slash (c :: cs) =
      if c = '/' then [] :: split_slash cs
      else
        match split_slash cs with
        | [] => [[c]]
        | x :: xs => (c :: x) :: xs := by
  rw [split_slash]

theorem split_slash_append (a b : List Char) :
    split_slash (a ++ '/' :: b) = split_slash a ++ split_slash b := by
  induction a with
  | nil => simp [split_slash]
  | cons c a ih =>
    simp only [List.cons_append]
    rw [split_slash_cons c (a ++ '/' :: b), split_slash_cons c a, ih]
    by_cases hc : c = '/'
    · simp [hc]
    · simp only [hc, if_false]
      cases hs : split_slash a with
      | nil => exact absurd hs (split_slash_ne_nil a)
      | cons x xs => simp

theorem walk_step_name (at_ : List String) (name : String)
    (h1 : name ≠ "") (h2 : name ≠ ".") (h3 : name ≠ "..") :
    walk_step at_ name = at_ ++ [name] := by
  simp [walk_step, h1, h2, h3]

/-- A plain name appended to the configuration directory is looked up as an
entry of that directory. -/
theorem locate_confdir_child (cwd : List String) (home name : String)
    (hs : split_slash name.data = [name.data])
    (h1 : name ≠ "") (h2 : name ≠ ".") (h3 : name ≠ "..") :
    locate cwd (home ++ "/.alephone/" ++ name) = locate cwd (home ++ "/.alephone/") ++ [name] := by
  have hd1 : (home ++ "/.alephone/" ++ name).data =
      home.data ++ '/' :: (".alephone".data ++ '/' :: name.data) := by
    simp [String.data_append]
  have hd2 : (home ++ "/.alephone/").data = home.data ++ '/' :: (".alephone".data ++ '/' :: []) := by
    simp [String.data_append]
  have hsplit : split_slash ".alephone".data = [".alephone".data] := by decide
  have hhead : (home.data ++ '/' :: (".alephone".data ++ '/' :: name.data)).head? =
      (home.data ++ '/' :: (".alephone".data ++ '/' :: [])).head? := by
    cases home.data <;> simp
  unfold locate
  rw [hd1, hd2, hhead, split_slash_append, split_slash_append, split_slash_append,
    split_slash_append, hs, hsplit]
  simp only [List.map_append, List.foldl_append, List.map_cons, List.map_nil, List.foldl_cons,
    List.foldl_nil]
  have hempty : split_slash [] = [[]] := rfl
  rw [hempty]
  simp only [List.map_cons, List.map_nil, List.foldl_cons, List.foldl_nil]
  rw [show (String.mk name.data) = name from rfl, walk_step_name _ name h1 h2 h3]
  congr 1

theorem lookup_set_entry (c : String) (n : Node) (es : List (String × Node)) :
    (set_entry c (some n) es).lookup c = some n := by
  induction es with
  | nil => simp [set_entry, List.lookup]
  | cons e es ih =>
    obtain ⟨k, old⟩ := e
    unfold set_entry
    by_cases hk : k = c
    · simp [hk, List.lookup]
    · have hb : (c == k) = false := by simpa using fun h => hk h.symm
      simp [hk, List.lookup, hb, ih]

theorem get_error_append (root : Node) (p q : List String) (e : Nat)
    (h : root.get p = Except.error e) : root.get (p ++ q) = Except.error e := by
  induction p generalizing root with
  | nil => simp [Node.get] at h
  | cons c cs ih =>
    cases root with
    | file => simpa [Node.get] using h
    | dir r w es =>
      simp only [List.cons_append, Node.get] at h ⊢
      cases hl : es.lookup c with
      | none => simpa [hl] using h
      | some child =>
        rw [hl] at h
        exact ih child h

/-- After an object has been put at `p` inside an existing directory, lookups
below `p` are lookups inside that object. -/
theorem get_put_append (root : Node) (p q : List String) (n : Node) (hp : p ≠ [])
    (hpar : parent_writable root p.dropLast = Except.ok ()) :
    (root.put p (some n)).get (p ++ q) = n.get q := by
  induction p generalizing root with
  | nil => exact absurd rfl hp
  | cons c cs ih =>
    cases cs with
    | nil =>
      cases root with
      | file => simp [parent_writable, Node.get] at hpar
      | dir r w es => simp [Node.put, Node.get, lookup_set_entry]
    | cons c2 cs =>
      cases root with
      | file => simp [parent_writable, Node.get] at hpar
      | dir r w es =>
        simp only [List.dropLast_cons₂, parent_writable, Node.get] at hpar
        cases hl : es.lookup c with
        | none => simp [hl] at hpar
        | some child =>
          rw [hl] at hpar
          have hchild : parent_writable child (c2 :: cs).dropLast = Except.ok () := by
            simpa [parent_writable] using hpar
          simp only [Node.put, hl, List.cons_append, Node.get, lookup_set_entry]
          exact ih child (by simp) hchild

/-! ## Download into a fresh environment -/

theorem tree_remove_missing (exec : String → FS → Int × FS) (answer : String → String → Int)
    (fs : FS) (path : String)
    (h : fs.root.get (locate fs.cwd path) = Except.error ENOENT) :
    (tree_sys exec answer).remove path fs = (-1, fs) := by
  simp only [tree_sys, FS.remove, h]
  split_ifs <;> rfl

theorem tree_nftw_missing (exec : String → FS → Int × FS) (answer : String → String → Int)
    (fs : FS) (path : String)
    (h : fs.root.get (locate fs.cwd path) = Except.error ENOENT) :
    (tree_sys exec answer).nftw_remove path fs = ((-1, ENOENT), fs) := by
  simp only [tree_sys, FS.nftw_remove, h]
  split_ifs <;> rfl

theorem tree_not_full_missing (exec : String → FS → Int × FS) (answer : String → String → Int)
    (fs : FS) (path : String)
    (h : fs.root.get (locate fs.cwd path) = Except.error ENOENT) :
    is_full_directory (tree_sys exec answer) path fs = false := by
  simp only [is_full_directory, tree_sys, FS.stat, h]
  split_ifs <;> rfl

/-- A built-in download over a configuration directory that holds none of the
five entries the launcher manages: the run once the initial `mkdir` has
returned. -/
theorem download_barren (exec : String → FS → Int × FS) (answer : String → String → Int)
    (fs fs1 : FS) (l : launcher) (cd : String) (hcd : confdir l = some cd)
    (hs : l.m_script = none) (rm : Int)
    (hmk : (tree_sys exec answer).mkdir cd 0o775 fs = (rm, fs1))
    (hwget : ∀ fs', exec wget_check fs' = (0, fs'))
    (hnone : ∀ name ∈ ["download.log", "alephone.png", "data-marathon-master",
        "data-marathon-2-master", "data-marathon-infinity-master"],
      fs1.root.get (locate fs1.cwd (cd ++ name)) = Except.error ENOENT) :
    download (tree_sys exec answer) l ⟨fs, []⟩ =
      (some true, ⟨(exec (builtin_command l) fs1).2,
        [Event.mkdir cd 0o775 rm,
         Event.remove (cd ++ "download.log") (-1),
         Event.system wget_check 0,
         Event.nftw (cd ++ "data-marathon-master") (-1) ENOENT,
         Event.nftw (cd ++ "data-marathon-2-master") (-1) ENOENT,
         Event.nftw (cd ++ "data-marathon-infinity-master") (-1) ENOENT,
         Event.remove (cd ++ "alephone.png") (-1),
         Event.system (builtin_command l) (exec (builtin_command l) fs1).1]⟩) := by
  have hlog := tree_remove_missing exec answer fs1 _ (hnone "download.log" (by simp))
  have hicon := tree_remove_missing exec answer fs1 _ (hnone "alephone.png" (by simp))
  have hn1 := tree_nftw_missing exec answer fs1 _ (hnone "data-marathon-master" (by simp))
  have hn2 := tree_nftw_missing exec answer fs1 _ (hnone "data-marathon-2-master" (by simp))
  have hn3 := tree_nftw_missing exec answer fs1 _ (hnone "data-marathon-infinity-master" (by simp))
  have hf1 := tree_not_full_missing exec answer fs1 _ (hnone "data-marathon-master" (by simp))
  have hsys : ∀ cmd fs', (tree_sys exec answer).system cmd fs' = exec cmd fs' := fun _ _ => rfl
  have hade : all_directories_exist (tree_sys exec answer) l fs1 = some false := by
    rw [all_directories_exist_eq _ l fs1 cd hcd, hf1]
    rfl
  have hrd : ∀ (name : String) (tr : List Event),
      (tree_sys exec answer).nftw_remove (cd ++ name) fs1 = ((-1, ENOENT), fs1) →
      remove_data (tree_sys exec answer) l name ⟨fs1, tr⟩ =
        (some true, ⟨fs1, tr ++ [Event.nftw (cd ++ name) (-1) ENOENT]⟩) := by
    intro name tr hn
    simp [remove_data, hcd, call_nftw, hn]
  have hpurge : ∀ tr : List Event, download_purge (tree_sys exec answer) l ⟨fs1, tr⟩ =
      (some true, ⟨(exec (builtin_command l) fs1).2,
        tr ++ [Event.nftw (cd ++ "data-marathon-master") (-1) ENOENT,
         Event.nftw (cd ++ "data-marathon-2-master") (-1) ENOENT,
         Event.nftw (cd ++ "data-marathon-infinity-master") (-1) ENOENT,
         Event.remove (cd ++ "alephone.png") (-1),
         Event.system (builtin_command l) (exec (builtin_command l) fs1).1]⟩) := by
    intro tr
    simp only [download_purge, hrd _ _ hn1, hrd _ _ hn2, hrd _ _ hn3, download_fetch, hcd,
      call_remove, hicon, command, hsys]
    simp
  simp only [download, hcd, hs, call_mkdir, hmk, call_remove, hlog, command, hsys, hwget, hade,
    hpurge]
  simp

theorem managed_names_plain (name : String)
    (h : name ∈ ["download.log", "alephone.png", "data-marathon-master",
      "data-marathon-2-master", "data-marathon-infinity-master"]) :
    split_slash name.data = [name.data] ∧ name ≠ "" ∧ name ≠ "." ∧ name ≠ ".." := by
  simp only [List.mem_cons, List.mem_singleton, List.not_mem_nil, or_false] at h
  rcases h with rfl | rfl | rfl | rfl | rfl <;> decide

/-- C10 fails as stated: in a fresh environment without `wget`, `download`
creates the configuration directory, reports the missing tool and returns
`false` without spawning the pipeline. -/
theorem download_fresh_without_wget :
    fresh_home.stat "/home/u/.alephone/" = none ∧
    builtin_launcher.m_script = none ∧
    (download no_wget_sys builtin_launcher ⟨fresh_home, []⟩).1 = some false ∧
    (download no_wget_sys builtin_launcher ⟨fresh_home, []⟩).2.trace =
      [Event.mkdir "/home/u/.alephone/" 0o775 0,
       Event.remove "/home/u/.alephone/download.log" (-1),
       Event.system "wget --version 2>/dev/null >/dev/null" 1,
       Event.fl_alert "Error" "`wget' is required to download the game files."] := by
  decide

/-- C10, amended. On the file tree, when `confdir()` does not exist, no
custom script is configured and the tool check succeeds without touching any
file, `download` returns `true` after exactly these calls: `mkdir` of
`confdir()` (which creates it as an empty directory when its parent is a
writable directory), the failing removal of the absent log, the tool check,
three walks that find nothing (`ENOENT`) and remove nothing, the failing
removal of the absent icon, and the built-in pipeline.  No prompt is shown
and the pipeline starts on the tree as `mkdir` left it. -/
theorem download_fresh_environment (exec : String → FS → Int × FS)
    (answer : String → String → Int) (fs : FS) (l : launcher) (home : String)
    (hh : l.m_home = some home) (hs : l.m_script = none)
    (hfresh : fs.root.get (locate fs.cwd (home ++ "/.alephone/")) = Except.error ENOENT)
    (hwget : ∀ fs', exec wget_check fs' = (0, fs')) :
    ∃ (rm : Int) (fs1 : FS),
      (tree_sys exec answer).mkdir (home ++ "/.alephone/") 0o775 fs = (rm, fs1) ∧
      (parent_writable fs.root (locate fs.cwd (home ++ "/.alephone/")).dropLast = Except.ok () →
        rm = 0 ∧
        fs1.root.get (locate fs.cwd (home ++ "/.alephone/")) =
          Except.ok (Node.dir true true [])) ∧
      download (tree_sys exec answer) l ⟨fs, []⟩ =
        (some true, ⟨(exec (builtin_command l) fs1).2,
          [Event.mkdir (home ++ "/.alephone/") 0o775 rm,
           Event.remove (home ++ "/.alephone/" ++ "download.log") (-1),
           Event.system wget_check 0,
           Event.nftw (home ++ "/.alephone/" ++ "data-marathon-master") (-1) ENOENT,
           Event.nftw (home ++ "/.alephone/" ++ "data-marathon-2-master") (-1) ENOENT,
           Event.nftw (home ++ "/.alephone/" ++ "data-marathon-infinity-master") (-1) ENOENT,
           Event.remove (home ++ "/.alephone/" ++ "alephone.png") (-1),
           Event.system (builtin_command l) (exec (builtin_command l) fs1).1]⟩) := by
  have hcd : confdir l = some (home ++ "/.alephone/") := by simp [confdir, hh]
  have hp : locate fs.cwd (home ++ "/.alephone/") ≠ [] := by
    intro h
    rw [h] at hfresh
    simp [Node.get] at hfresh
  have hcdne : home ++ "/.alephone/" ≠ "" := by
    intro h
    have h2 := congrArg String.data h
    simp [String.data_append] at h2
  have hloc : ∀ name ∈ ["download.log", "alephone.png", "data-marathon-master",
      "data-marathon-2-master", "data-marathon-infinity-master"],
      locate fs.cwd (home ++ "/.alephone/" ++ name) =
        locate fs.cwd (home ++ "/.alephone/") ++ [name] := by
    intro name hn
    obtain ⟨h0, h1, h2, h3⟩ := managed_names_plain name hn
    exact locate_confdir_child fs.cwd home name h0 h1 h2 h3
  cases hpw : parent_writable fs.root (locate fs.cwd (home ++ "/.alephone/")).dropLast with
  | error e =>
    have hmk : (tree_sys exec answer).mkdir (home ++ "/.alephone/") 0o775 fs = (-1, fs) := by
      simp [tree_sys, FS.mkdir, hcdne, hfresh, hpw]
    refine ⟨-1, fs, hmk, fun h => by simp at h, ?_⟩
    refine download_barren exec answer fs fs l _ hcd hs (-1) hmk hwget ?_
    intro name hn
    rw [hloc name hn]
    exact get_error_append _ _ _ _ hfresh
  | ok u =>
    have hmk : (tree_sys exec answer).mkdir (home ++ "/.alephone/") 0o775 fs =
        (0, (⟨fs.root.put (locate fs.cwd (home ++ "/.alephone/"))
          (some (Node.dir true true [])), fs.cwd⟩ : FS)) := by
      simp [tree_sys, FS.mkdir, hcdne, hfresh, hpw]
    refine ⟨0, _, hmk, fun _ => ⟨rfl, ?_⟩, ?_⟩
    · have := get_put_append fs.root (locate fs.cwd (home ++ "/.alephone/")) []
        (Node.dir true true []) hp hpw
      simpa [Node.get] using this
    · refine download_barren exec answer fs _ l _ hcd hs 0 hmk hwget ?_
      intro name hn
      show (fs.root.put _ _).get (locate fs.cwd (home ++ "/.alephone/" ++ name)) = _
      rw [hloc name hn, get_put_append fs.root _ [name] (Node.dir true true []) hp hpw]
      simp [Node.get, List.lookup]

/-- Witness for the amended C10: the first download of a new user. -/
theorem download_fresh_environment_witness :
    fresh_home.root.get (locate fresh_home.cwd ("/home/u" ++ "/.alephone/")) =
      Except.error ENOENT ∧
    (download willing_sys builtin_launcher ⟨fresh_home, []⟩).1 = some true := by
  obtain ⟨rm, fs1, -, -, h⟩ := download_fresh_environment (fun _ fs => (0, fs)) (fun _ _ => 1)
    fresh_home builtin_launcher "/home/u" rfl rfl rfl (fun _ => rfl)
  exact ⟨rfl, by rw [willing_sys, h]⟩

/-! ## Launching a game -/

/-- C11. The calls of `launch_cb` are the game command, then the probe only
if the game command exited non-zero, then the alert only if the probe exited
non-zero too; so the "not in PATH" message is shown exactly when both exit
non-zero, a successful game command is followed by nothing, and a failed one
that the probe finds produces no message. -/
theorem launch_cb_error_iff {σ : Type} (sys : Sys σ) (p : String) (s : σ) :
    (launch_cb sys p ⟨s, []⟩).trace =
      Event.system p (sys.system p s).1 ::
        (if (sys.system p s).1 = 0 then []
         else Event.system alephone_check (sys.system alephone_check (sys.system p s).2).1 ::
           (if (sys.system alephone_check (sys.system p s).2).1 = 0 then []
            else [Event.fl_alert "Error" "`alephone' is not in PATH"])) ∧
    (Event.fl_alert "Error" "`alephone' is not in PATH" ∈ (launch_cb sys p ⟨s, []⟩).trace ↔
      (sys.system p s).1 ≠ 0 ∧ (sys.system alephone_check (sys.system p s).2).1 ≠ 0) ∧
    ((∃ t m, Event.fl_alert t m ∈ (launch_cb sys p ⟨s, []⟩).trace) ↔
      (sys.system p s).1 ≠ 0 ∧ (sys.system alephone_check (sys.system p s).2).1 ≠ 0) ∧
    ((launch_cb sys p ⟨s, []⟩).trace.length = 1 ↔ (sys.system p s).1 = 0) := by
  have htrace : (launch_cb sys p ⟨s, []⟩).trace =
      Event.system p (sys.system p s).1 ::
        (if (sys.system p s).1 = 0 then []
         else Event.system alephone_check (sys.system alephone_check (sys.system p s).2).1 ::
           (if (sys.system alephone_check (sys.system p s).2).1 = 0 then []
            else [Event.fl_alert "Error" "`alephone' is not in PATH"])) := by
    simp only [launch_cb, command, error_message, call_fl_alert]
    by_cases hg : (sys.system p s).1 = 0
    · simp [hg]
    · by_cases hv : (sys.system alephone_check (sys.system p s).2).1 = 0
      · simp [hg, hv]
      · simp [hg, hv]
  refine ⟨htrace, ?_, ?_, ?_⟩
  · rw [htrace]
    by_cases hg : (sys.system p s).1 = 0
    · simp [hg]
    · by_cases hv : (sys.system alephone_check (sys.system p s).2).1 = 0
      · simp [hg, hv]
      · simp [hg, hv]
  · rw [htrace]
    by_cases hg : (sys.system p s).1 = 0
    · simp [hg]
    · by_cases hv : (sys.system alephone_check (sys.system p s).2).1 = 0
      · simp [hg, hv]
      · simp [hg, hv]
  · rw [htrace]
    by_cases hg : (sys.system p s).1 = 0
    · simp [hg]
    · by_cases hv : (sys.system alephone_check (sys.system p s).2).1 = 0
      · simp [hg, hv]
      · simp [hg, hv]

/-- Witness for C11: the game exits with status 1 but the binary is found, so
no message is shown. -/
theorem launch_cb_error_iff_witness :
    (launch_cb crashing_game_sys "alephone ~/.alephone/data-marathon-master"
      ⟨fresh_home, []⟩).trace =
      [Event.system "alephone ~/.alephone/data-marathon-master" 1,
       Event.system alephone_check 0] :=
  (launch_cb_error_iff crashing_game_sys "alephone ~/.alephone/data-marathon-master"
    fresh_home).1

/-! ## The invocation name as an icon candidate -/

theorem append_png_ne_empty (p : String) : p ++ ".png" ≠ "" := by
  intro h
  have h2 := congrArg String.length h
  simp only [String.length_append] at h2
  have h3 : ".png".length = 4 := by decide
  have h4 : "".length = 0 := by decide
  omega

theorem get_progname_png_some (e : IconEnv) (p : String) (hp : e.invocation_name = some p) :
    get_progname_png e = if p ≠ "" ∧ '/' ∈ p.data then p ++ ".png" else "" := by
  unfold get_progname_png
  rw [hp]

/-- C12. `get_progname_png` returns the invocation name with `.png` appended
exactly when the name is available, non-empty and contains `/`; for an
unavailable name, an empty name or a name without `/` it returns the empty
string, and `load_default_icon` then runs the cascade without candidate 1. -/
theorem get_progname_png_iff (e : IconEnv) :
    (∀ p, e.invocation_name = some p →
      (get_progname_png e = p ++ ".png" ↔ p ≠ "" ∧ '/' ∈ p.data)) ∧
    (get_progname_png e ≠ "" ↔
      ∃ p, e.invocation_name = some p ∧ p ≠ "" ∧ '/' ∈ p.data) ∧
    (e.invocation_name = none → get_progname_png e = "") ∧
    (∀ p, e.invocation_name = some p → (p = "" ∨ '/' ∉ p.data) → get_progname_png e = "") ∧
    (get_progname_png e = "" → ∀ (l : launcher) (s : IconState) (home : String),
      l.m_home = some home →
      load_default_icon e l s = some (resolve e
        ((if get_self_exe_png e ≠ "" then [get_self_exe_png e] else []) ++
          [home ++ "/.alephone/" ++ "alephone.png"] ++
          hicolor_sizes.map hicolor_path ++
          ["/usr/share/pixmaps/alephone.png"]) s)) := by
  refine ⟨?_, ?_, ?_, ?_, ?_⟩
  · intro p hp
    rw [get_progname_png_some e p hp]
    by_cases h : p ≠ "" ∧ '/' ∈ p.data
    · rw [if_pos h]
      exact ⟨fun _ => h, fun _ => rfl⟩
    · rw [if_neg h]
      exact ⟨fun hh => absurd hh.symm (append_png_ne_empty p), fun hh => absurd hh h⟩
  · cases hn : e.invocation_name with
    | none => simp [get_progname_png, hn]
    | some p =>
      rw [get_progname_png_some e p hn]
      by_cases h : p ≠ "" ∧ '/' ∈ p.data
      · rw [if_pos h]
        exact ⟨fun _ => ⟨p, rfl, h⟩, fun _ => append_png_ne_empty p⟩
      · rw [if_neg h]
        refine ⟨fun hh => absurd rfl hh, ?_⟩
        rintro ⟨q, hq, hq2⟩
        cases hq
        exact absurd hq2 h
  · intro hn
    simp [get_progname_png, hn]
  · intro p hp hbad
    rw [get_progname_png_some e p hp]
    have h : ¬(p ≠ "" ∧ '/' ∈ p.data) := by
      rintro ⟨h1, h2⟩
      rcases hbad with hb | hb
      · exact h1 hb
      · exact hb h2
    rw [if_neg h]
  · intro hempty l s home hh
    rw [load_default_icon_eq_resolve e l s home hh]
    unfold icon_candidates
    simp [hempty]

/-- Witness for C12: a launcher started as `./launcher` looks for
`./launcher.png`; started as `launcher` through `PATH` it skips candidate 1. -/
theorem get_progname_png_iff_witness :
    get_progname_png ⟨some "./launcher", none, fun _ => false, true⟩ = "./launcher" ++ ".png" ∧
    get_progname_png ⟨some "launcher", none, fun _ => false, true⟩ = "" :=
  ⟨((get_progname_png_iff ⟨some "./launcher", none, fun _ => false, true⟩).1
      "./launcher" rfl).mpr (by decide),
   (get_progname_png_iff ⟨some "launcher", none, fun _ => false, true⟩).2.2.2.1
      "launcher" rfl (Or.inr (by decide))⟩

/-! ## The command buffer of `download` -/

theorem utf8ByteSize_eq (t : String) : t.utf8ByteSize = String.utf8Len t.data := by
  cases t
  rfl

theorem utf8ByteSize_append (a b : String) :
    (a ++ b).utf8ByteSize = a.utf8ByteSize + b.utf8ByteSize := by
  simp [utf8ByteSize_eq, String.data_append]

theorem digitChar_one_byte (d : Nat) (h : d < 10) : (Nat.digitChar d).utf8Size = 1 := by
  interval_cases d <;> rfl

theorem toDigitsCore_one_byte (f n : Nat) (ds : List Char)
    (hds : ∀ c ∈ ds, c.utf8Size = 1) :
    ∀ c ∈ Nat.toDigitsCore 10 f n ds, c.utf8Size = 1 := by
  induction f generalizing n ds with
  | zero => simpa [Nat.toDigitsCore] using hds
  | succ f ih =>
    have hcons : ∀ c ∈ Nat.digitChar (n % 10) :: ds, c.utf8Size = 1 := by
      intro c hc
      rcases List.mem_cons.mp hc with rfl | hc
      · exact digitChar_one_byte _ (Nat.mod_lt _ (by decide))
      · exact hds c hc
    simp only [Nat.toDigitsCore]
    split_ifs
    · exact hcons
    · exact ih _ _ hcons

theorem utf8Len_one_byte (cs : List Char) (h : ∀ c ∈ cs, c.utf8Size = 1) :
    String.utf8Len cs = cs.length := by
  induction cs with
  | nil => rfl
  | cons c cs ih =>
    rw [String.utf8Len_cons, ih (fun d hd => h d (List.mem_cons_of_mem _ hd)),
      h c (List.mem_cons_self _ _), List.length_cons]

/-- A natural number below `10 ^ 10` prints in at most ten bytes. -/
theorem nat_repr_bytes (n : Nat) (h : n < 10 ^ 10) : (Nat.repr n).utf8ByteSize ≤ 10 := by
  have hlen := Nat.repr_length n 10 (by decide) h
  have hascii : ∀ c ∈ (Nat.repr n).data, c.utf8Size = 1 := by
    simp only [Nat.repr, Nat.toDigits, List.asString]
    exact toDigitsCore_one_byte _ _ _ (by simp)
  rw [utf8ByteSize_eq, utf8Len_one_byte _ hascii]
  exact hlen

/-- A 32-bit signed integer prints with `%d` in at most eleven bytes. -/
theorem int_repr_bytes (x : Int) (hlo : -2 ^ 31 ≤ x) (hhi : x < 2 ^ 31) :
    (toString x).utf8ByteSize ≤ 11 := by
  cases x with
  | ofNat n =>
    have hn : n < 10 ^ 10 := by
      have : (n : Int) < 2 ^ 31 := hhi
      omega
    show (Nat.repr n).utf8ByteSize ≤ 11
    exact Nat.le_succ_of_le (nat_repr_bytes n hn)
  | negSucc m =>
    have hm : m + 1 < 10 ^ 10 := by
      have hneg : -2 ^ 31 ≤ Int.negSucc m := hlo
      rw [Int.negSucc_eq] at hneg
      omega
    show ("-" ++ Nat.repr (m + 1)).utf8ByteSize ≤ 11
    rw [utf8ByteSize_append]
    have h1 : "-".utf8ByteSize = 1 := by decide
    have := nat_repr_bytes (m + 1) hm
    omega

/-- C13. For all 32-bit signed coordinates `x` and `y`, the text that
`sprintf` writes into the 256-byte `buf`, terminating NUL included, takes at
most 126 bytes and therefore fits the buffer. -/
theorem sprintf_fits_buf (x y : Int)
    (hx : -2 ^ 31 ≤ x ∧ x < 2 ^ 31) (hy : -2 ^ 31 ≤ y ∧ y < 2 ^ 31) :
    sprintf_bytes x y ≤ 126 ∧ sprintf_bytes x y ≤ 256 ∧
      sprintf_bytes x y = 104 + (toString x).utf8ByteSize + (toString y).utf8ByteSize := by
  have hbx := int_repr_bytes x hx.1 hx.2
  have hby := int_repr_bytes y hy.1 hy.2
  have h1 : "xterm ".utf8ByteSize = 6 := by decide
  have h2 : "-title 'Download (close window to abort)' ".utf8ByteSize = 42 := by decide
  have h3 : "-geometry 100x30+".utf8ByteSize = 17 := by decide
  have h4 : "+".utf8ByteSize = 1 := by decide
  have h5 : " ".utf8ByteSize = 1 := by decide
  have h6 : "-l -lf ~/.alephone/download.log ".utf8ByteSize = 32 := by decide
  have h7 : "-e '".utf8ByteSize = 4 := by decide
  have hsum : sprintf_bytes x y =
      104 + (toString x).utf8ByteSize + (toString y).utf8ByteSize := by
    simp only [sprintf_bytes, sprintf_fmt, utf8ByteSize_append, h1, h2, h3, h4, h5, h6, h7]
    omega
  refine ⟨?_, ?_, hsum⟩ <;> omega

set_option maxRecDepth 100000 in
/-- Witness for C13: both coordinates at the most negative 32-bit value, the
longest text `%d` can print. -/
theorem sprintf_fits_buf_witness :
    (-2 ^ 31 ≤ (-2147483648 : Int) ∧ (-2147483648 : Int) < 2 ^ 31) ∧
    sprintf_bytes (-2147483648) (-2147483648) = 126 ∧
    sprintf_bytes (-2147483648) (-2147483648) ≤ 256 :=
  ⟨by decide, by decide,
   (sprintf_fits_buf (-2147483648) (-2147483648) (by decide) (by decide)).2.1⟩

end Launcher
